import Mathlib

/-!
# Verification of the AI-document-reader retrieval/answering core

Shallow embedding of the retrieval fallback pipeline of the AI-document-reader
backend, together with proofs of the specification claims about it.

Modelling conventions:
* JavaScript numbers that carry embedding-vector values are modelled as
  rationals (`ℚ`); the one place the source computes a square root
  (L2-normalising the hashing-fallback vector) is modelled over `ℝ` with
  `Real.sqrt`.
* Network calls (the Ollama/OpenAI embedding strategies, the chat model) and
  database calls (`pgPool` queries, the Postgres-side `match_documents`
  function, the `metadata::text` cast) are genuinely external I/O; their
  outcomes enter the model as explicit parameters.  A JavaScript `throw` is
  modelled as `Except.error` carrying the message string the source builds.
* The JavaScript `RegExp` platform facility is modelled by a parameter
  `regexCompile : String → Except String (String → Nat)`: compiling a pattern
  either throws (invalid pattern syntax, e.g. `new RegExp("c++")`) or yields
  the function counting `String.match(re)` results (`0` when `match` is null).
-/

namespace DocReader

/-- Embedding vectors: ordered sequences of numeric values (JS floats as `ℚ`). -/
abbrev Vec := List ℚ

/-- `new Array(dims).fill(0)` — the all-zero vector used on total failure
(`customEmbeddings.js`, `embedQuery` catch branch). -/
def zeroVector (dims : Nat) : Vec := List.replicate dims 0

/-- `DirectOllamaEmbeddings._resizeEmbedding` (`customEmbeddings.js` 61–95):
resize a raw embedding to the target dimensionality.  If the lengths match the
vector passes through; if the source is a larger multiple of the target,
contiguous groups are averaged; if larger but not a multiple, it is truncated;
if smaller (and non-empty) it is tiled and truncated.  On an empty input with a
positive target, the JS `Array(Math.ceil(targetDim/0))` constructor throws a
`RangeError`, modelled as `Except.error`. -/
def resizeEmbedding (e : Vec) (targetDim : Nat) : Except String Vec :=
  let originalDim := e.length
  if originalDim = targetDim then
    .ok e
  else if targetDim < originalDim then
    if originalDim % targetDim = 0 then
      let groupSize := originalDim / targetDim
      .ok ((List.range targetDim).map (fun i =>
        (((List.range groupSize).map (fun j => e.getD (i * groupSize + j) 0)).sum) /
          (groupSize : ℚ)))
    else
      .ok (e.take targetDim)
  else
    if originalDim = 0 then
      .error "Invalid array length"
    else
      let repeats := (targetDim + originalDim - 1) / originalDim
      .ok ((List.replicate repeats e).flatten.take targetDim)

/-- `DirectOllamaEmbeddings._generateEmbedding` (`customEmbeddings.js` 100–123):
run the ordered cascade of embedding strategies; each strategy outcome is an
input (the strategies are network calls).  A strategy whose exception is caught,
or whose result is empty, is skipped; the first non-empty success wins; when the
list is exhausted the deterministic hashing fallback's outcome is returned (if
that fallback itself were to throw, the error propagates to the caller). -/
def generateEmbedding (methods : List (Except String Vec))
    (fallback : Except String Vec) : Except String Vec :=
  match methods with
  | [] => fallback
  | m :: rest =>
    match m with
    | .ok e => if 0 < e.length then .ok e else generateEmbedding rest fallback
    | .error _ => generateEmbedding rest fallback

/-- `DirectOllamaEmbeddings.embedQuery` (`customEmbeddings.js` 47–56): generate
an embedding through the cascade and resize it to `dims`; any error escaping
`_generateEmbedding` or `_resizeEmbedding` is caught and the all-zero vector of
length `dims` is returned instead. -/
def embedQuery (methods : List (Except String Vec)) (fallback : Except String Vec)
    (dims : Nat) : Vec :=
  match generateEmbedding methods fallback with
  | .error _ => zeroVector dims
  | .ok e =>
    match resizeEmbedding e dims with
    | .ok v => v
    | .error _ => zeroVector dims

/-- Stable descending sort by a numeric key, modelling JavaScript's (stable)
`Array.prototype.sort((a, b) => keyOf b - keyOf a)`: elements are taken in
input order and each is inserted after every already-placed element of
greater-or-equal key. -/
def insertDesc {α : Type} (keyOf : α → Nat) (x : α) : List α → List α
  | [] => [x]
  | y :: ys => if keyOf y < keyOf x then x :: y :: ys else y :: insertDesc keyOf x ys

/-- See `insertDesc`: fold the input from the left into a sorted accumulator. -/
def sortDesc {α : Type} (keyOf : α → Nat) (l : List α) : List α :=
  l.foldl (fun acc x => insertDesc keyOf x acc) []

/-- `String.prototype.toLowerCase`, implemented character-wise (equivalent to
`String.toLower`, in a kernel-reducible form). -/
def strLower (s : String) : String := String.mk (s.data.map Char.toLower)

/-- Split a character list at every character satisfying `p`; pieces between
consecutive separators are empty, and the empty list yields one empty piece
(the semantics of `String.split` and of JS `split` up to empty pieces, which
every use filters away). -/
def splitChars (p : Char → Bool) : List Char → List (List Char)
  | [] => [[]]
  | c :: cs =>
    if p c then [] :: splitChars p cs
    else
      match splitChars p cs with
      | [] => [[c]]
      | w :: ws => (c :: w) :: ws

/-- String splitting on a character predicate (kernel-reducible form of
`String.split`). -/
def strSplit (p : Char → Bool) (s : String) : List String :=
  (splitChars p s.data).map String.mk

/-- `String.prototype.trim`: drop whitespace from both ends (kernel-reducible
form of `String.trim`). -/
def strTrim (s : String) : String :=
  String.mk (((s.data.dropWhile Char.isWhitespace).reverse.dropWhile
    Char.isWhitespace).reverse)

/-- Does `pat` occur (as a contiguous run) in the list? -/
def containsAux (pat : List Char) : List Char → Bool
  | [] => pat.isEmpty
  | c :: cs => pat.isPrefixOf (c :: cs) || containsAux pat cs

/-- JavaScript `String.prototype.includes` / SQL `LIKE '%pat%'`: substring
containment (every string contains the empty string). -/
def strContains (s pat : String) : Bool := containsAux pat.data s.data

/-- Fuel-driven count of the non-overlapping left-to-right occurrences of a
pattern (the fuel, instantiated with the subject length, only forces
termination). -/
def countOccFuel (pat : List Char) : Nat → List Char → Nat
  | 0, _ => 0
  | _, [] => 0
  | fuel + 1, c :: cs =>
    if pat.isPrefixOf (c :: cs) then
      1 + countOccFuel pat fuel ((c :: cs).drop pat.length)
    else
      countOccFuel pat fuel cs

/-- Count of the non-overlapping left-to-right occurrences of `pat` in `s`:
the number of matches JavaScript's `content.match(new RegExp(pat, 'g'))`
reports when `pat` is a plain literal term (no regex metacharacters).  Used to
instantiate the abstract regex-engine parameter on concrete inputs. -/
def countOccurrences (pat s : String) : Nat :=
  countOccFuel pat.data s.data.length s.data

/-- Decidable equality of `Except` values with decidable components. -/
instance exceptDecidableEq {ε α : Type} [DecidableEq ε] [DecidableEq α] :
    DecidableEq (Except ε α) := fun a b =>
  match a, b with
  | .error e1, .error e2 =>
    if h : e1 = e2 then .isTrue (by rw [h])
    else .isFalse (by intro hc; cases hc; exact h rfl)
  | .error _, .ok _ => .isFalse (by intro hc; cases hc)
  | .ok _, .error _ => .isFalse (by intro hc; cases hc)
  | .ok a1, .ok a2 =>
    if h : a1 = a2 then .isTrue (by rw [h])
    else .isFalse (by intro hc; cases hc; exact h rfl)

/-- Descending-sortedness by a numeric key: every element's key is `≥` the key
of every later element. -/
def SortedDesc {α : Type} (keyOf : α → Nat) (l : List α) : Prop :=
  l.Pairwise (fun a b => keyOf b ≤ keyOf a)

/-- `DirectOllamaEmbeddings._simpleHash` (`customEmbeddings.js` 314–321):
`hash = ((hash << 5) - hash) + charCodeAt(i); hash |= 0` — a 31-multiplier
string hash over 32-bit wrap-around signed integers. -/
def toInt32 (n : Int) : Int := (n + 2 ^ 31) % 2 ^ 32 - 2 ^ 31

/-- See `toInt32`. -/
def simpleHash (s : String) : Int :=
  s.data.foldl (fun hash c => toInt32 (toInt32 (hash * 32) - hash + c.toNat)) 0

/-- `_generatePseudoEmbedding`, text clean-up (`customEmbeddings.js` 266–269):
lowercase, replace every character that is not `\w` or `\s` by a space. -/
def pseudoCleaned (text : String) : String :=
  String.mk ((strLower text).data.map (fun c =>
    if c.isAlphanum ∨ c = '_' ∨ c.isWhitespace then c else ' '))

/-- `_generatePseudoEmbedding`, word extraction (`customEmbeddings.js` 272):
collapse whitespace, trim, split on spaces.  On fully-blank input the JS
`"".split(' ')` yields the single empty word. -/
def pseudoWords (text : String) : List String :=
  if ((strSplit Char.isWhitespace (pseudoCleaned text)).filter (fun w => w ≠ "")).isEmpty
  then [""]
  else (strSplit Char.isWhitespace (pseudoCleaned text)).filter (fun w => w ≠ "")

/-- `_generatePseudoEmbedding`, word-frequency keys (`customEmbeddings.js`
273–278): the distinct words of length `> 2`, in first-occurrence order (the JS
object key insertion order; the source's reordering of integer-like keys is
immaterial to the proved properties). -/
def pseudoFreqWords (words : List String) : List String :=
  (words.filter (fun w => 2 < w.length)).eraseDups

/-- Number of occurrences of a (length `> 2`) word, `wordFreq[word]`. -/
def pseudoFreq (words : List String) (w : String) : Nat :=
  (words.filter (fun x => x = w)).length

/-- `_generatePseudoEmbedding`, top words (`customEmbeddings.js` 281–284): sort
the frequency entries descending by count (stable) and keep the first 100. -/
def pseudoTopWords (words : List String) : List String :=
  (sortDesc (pseudoFreq words) (pseudoFreqWords words)).take 100

/-- `vector[position] += value` on a JS array, as an update of a `List`. -/
def addAt (v : List ℚ) (i : Nat) (x : ℚ) : List ℚ := v.set i (v.getD i 0 + x)

/-- `_generatePseudoEmbedding`, scatter loop body (`customEmbeddings.js`
290–299): one word's frequency-weighted contribution added at 16 hash-derived
positions. -/
def scatterWord (dims wordsLen : Nat) (words : List String) (wordIndex : Nat)
    (w : String) (v : List ℚ) : List ℚ :=
  (List.range 16).foldl (fun vec (i : Nat) =>
    let position := (simpleHash w * ((i : Int) + 1)).natAbs % dims
    let value : ℚ := ((pseudoFreq words w : ℚ) / (wordsLen : ℚ)) *
      (1 - (wordIndex : ℚ) * (1 / 100))
    addAt vec position value) v

/-- `_generatePseudoEmbedding` up to (and including) the length-dependent bias
(`customEmbeddings.js` 287–304): scatter each top word, then add
`text.length / 10000` at every position divisible by 200. -/
def pseudoRawVector (text : String) (dims : Nat) : List ℚ :=
  (List.range dims).foldl
    (fun vec i =>
      if i % 200 = 0 then addAt vec i ((text.length : ℚ) / 10000) else vec)
    ((pseudoTopWords (pseudoWords text)).enum.foldl
      (fun vec (p : Nat × String) =>
        scatterWord dims (pseudoWords text).length (pseudoWords text) p.1 p.2 vec)
      (List.replicate dims 0))

/-- `_generatePseudoEmbedding`, L2 magnitude (`customEmbeddings.js` 307):
`Math.sqrt(vector.reduce((sum, val) => sum + val*val, 0)) || 1`. -/
noncomputable def pseudoMagnitude (text : String) (dims : Nat) : ℝ :=
  if Real.sqrt (((pseudoRawVector text dims).map
      (fun (x : ℚ) => (x : ℝ) * (x : ℝ))).sum) = 0 then 1
  else Real.sqrt (((pseudoRawVector text dims).map
      (fun (x : ℚ) => (x : ℝ) * (x : ℝ))).sum)

/-- `DirectOllamaEmbeddings._generatePseudoEmbedding` (`customEmbeddings.js`
261–309): the deterministic hashing fallback — raw scatter-plus-bias vector,
L2-normalised with the zero-magnitude guard. -/
noncomputable def generatePseudoEmbedding (text : String) (dims : Nat) : List ℝ :=
  (pseudoRawVector text dims).map (fun (x : ℚ) => (x : ℝ) / pseudoMagnitude text dims)

/-- Chunk metadata as written by ingestion (`embeddingService.js` 64–69): the
`documentId` plus its historical aliases `document_id` and `id`, and the parent
document's name as `source`.  Rows from older ingestions may lack fields, hence
`Option`. -/
structure Metadata where
  documentId : Option String := none
  source : Option String := none
  document_id : Option String := none
  id : Option String := none
deriving DecidableEq

/-- A row of the `documents` chunk table: `(content, metadata, embedding)`. -/
structure Row where
  content : String
  metadata : Metadata
  embedding : Vec := []
deriving DecidableEq

/-- The `{pageContent, metadata}` objects `findRelevantChunks` returns. -/
structure ChunkMatch where
  pageContent : String
  metadata : Metadata
deriving DecidableEq

/-- The `{content, metadata}` source objects `askQuestion` returns. -/
structure SourceEntry where
  content : String
  metadata : Metadata
deriving DecidableEq

/-- A document-registry record (`documentModel.js`), the fields this core
reads and writes. -/
structure DocumentRecord where
  vectorized : Bool
  originalName : String
  supabaseCollectionName : Option String := none
deriving DecidableEq

/-- The `{answer, sources}` object `askQuestion` resolves to. -/
structure QAResult where
  answer : String
  sources : List SourceEntry
deriving DecidableEq

/-- Tier-1 direct lookup (`embeddingService.js` 151–154): rows whose metadata
`documentId`, `document_id` or `id` equals the requested document id. -/
def directLookup (store : List Row) (docId : String) : List Row :=
  store.filter (fun r =>
    decide (r.metadata.documentId = some docId ∨ r.metadata.document_id = some docId ∨
      r.metadata.id = some docId))

/-- Query-term extraction (`embeddingService.js` 162): lowercase, split on
whitespace runs, keep terms of length `> 2`. -/
def queryTerms (query : String) : List String :=
  (strSplit Char.isWhitespace (strLower query)).filter (fun t => 2 < t.length)

/-- Term-frequency score of one (already lowercased) content string
(`embeddingService.js` 173–189): for each term, compile it as a regex (which
may throw on invalid pattern syntax) and add the number of matches. -/
def scoreContent (rc : String → Except String (String → Nat)) (terms : List String)
    (content : String) : Except String Nat :=
  terms.foldlM (fun score term => (rc term).map (fun count => score + count content)) 0

/-- Tier-1 result assembly (`embeddingService.js` 158–198): with no usable query
terms, the first `topK` rows; otherwise all rows scored, stably sorted by
descending score, and the first `topK` kept. -/
def tier1Results (rc : String → Except String (String → Nat)) (query : String)
    (rows : List Row) (topK : Nat) : Except String (List ChunkMatch) :=
  match (queryTerms query).isEmpty with
  | true => .ok ((rows.take topK).map (fun r => ⟨r.content, r.metadata⟩))
  | false =>
    (rows.mapM (fun r =>
      (scoreContent rc (queryTerms query) (strLower r.content)).map (fun s => (r, s)))).map
      (fun scored => ((sortDesc Prod.snd scored).take topK).map
        (fun p => ⟨p.1.content, p.1.metadata⟩))

/-- The Tier-2 post-filter predicate (`embeddingService.js` 219–231):
`meta?.alias && meta.alias.toString() === docIdStr` — a JS truthiness test
(empty strings are falsy) followed by equality, over the three aliases. -/
def truthyAliasEq (o : Option String) (docId : String) : Bool :=
  match o with
  | some s => decide (s ≠ "" ∧ s = docId)
  | none => false

/-- See `truthyAliasEq`: any of the three metadata aliases matches. -/
def aliasTruthyMatch (m : Metadata) (docId : String) : Bool :=
  truthyAliasEq m.documentId docId || truthyAliasEq m.document_id docId ||
    truthyAliasEq m.id docId

/-- Which external calls `findRelevantChunks` made: whether the Embedding
Provider was invoked for the question, and with which `(similarity floor, k)`
arguments the store's `match_documents` similarity query was issued. -/
structure RetrievalEffects where
  embedderInvoked : Bool
  vectorSearch : Option (ℚ × Nat)
deriving DecidableEq

/-- The collaborators `findRelevantChunks` consumes: the document registry, the
chunk table contents, and the outcomes of the external calls (the Embedding
Provider's vector for the question, the Postgres-side `match_documents`
function, the `RegExp` platform facility). -/
structure RetrievalEnv where
  registry : String → Option DocumentRecord
  store : List Row
  queryEmbedding : Vec
  matchDocuments : Vec → ℚ → Nat → Except String (List Row)
  regexCompile : String → Except String (String → Nat)

/-!
`EmbeddingService.findRelevantChunks` (`embeddingService.js` 127–258):
document checks, Tier-1 direct lookup with lexical scoring, Tier-2 vector
similarity fallback with the null-vector guard and the document-id post-filter,
and the final `No chunks found` error; every thrown message is re-wrapped by the
outer catch as `Failed to find relevant chunks: …`.  (The `pgPool.connect` that
precedes the tiers is external I/O assumed available, as in every claim about
this function.)  Alongside the result, the record of external calls made.
The function is written below as a chain of small step functions, one per
branch point of the source.
-/

/-- The Tier-2 post-filter step (`embeddingService.js` 219–239): keep the rows
whose metadata aliases match the document; a non-empty remainder yields its
first `topK` rows, an empty one falls through to the `No chunks found` throw. -/
def frcVecSearch (docId : String) (topK : Nat) (vrows : List Row) :
    Except String (List ChunkMatch) × RetrievalEffects :=
  match (vrows.filter (fun r => aliasTruthyMatch r.metadata docId)).isEmpty with
  | false =>
    (.ok (((vrows.filter (fun r => aliasTruthyMatch r.metadata docId)).take topK).map
      (fun r => ⟨r.content, r.metadata⟩)), ⟨true, some (1 / 10, topK * 2)⟩)
  | true =>
    (.error ("Failed to find relevant chunks: No chunks found for document ID: "
      ++ docId), ⟨true, some (1 / 10, topK * 2)⟩)

/-- Tier 2 of `findRelevantChunks` (`embeddingService.js` 203–249): the
null-vector guard, the `match_documents(query, 0.1, topK*2)` similarity call
(whose own failure is caught and falls through to the `No chunks found` throw),
and — in `frcVecSearch` above — the document-id post-filter over its rows. -/
def frcTier2 (env : RetrievalEnv) (docId : String) (topK : Nat) :
    Except String (List ChunkMatch) × RetrievalEffects :=
  match env.queryEmbedding.any (fun v => decide (v ≠ 0)) with
  | true =>
    match env.matchDocuments env.queryEmbedding (1 / 10) (topK * 2) with
    | .ok vrows => frcVecSearch docId topK vrows
    | .error _ =>
      (.error ("Failed to find relevant chunks: No chunks found for document ID: "
        ++ docId), ⟨true, some (1 / 10, topK * 2)⟩)
  | false =>
    (.error ("Failed to find relevant chunks: No chunks found for document ID: "
      ++ docId), ⟨true, none⟩)

/-- The two-tier body of `findRelevantChunks` (`embeddingService.js` 149–249):
Tier-1 direct lookup with lexical scoring when any row is tagged with the
document, otherwise the Tier-2 vector fallback. -/
def frcTiers (env : RetrievalEnv) (docId query : String) (topK : Nat) :
    Except String (List ChunkMatch) × RetrievalEffects :=
  match (directLookup env.store docId).isEmpty with
  | false =>
    match tier1Results env.regexCompile query (directLookup env.store docId) topK with
    | .ok ms => (.ok ms, ⟨false, none⟩)
    | .error e => (.error ("Failed to find relevant chunks: " ++ e), ⟨false, none⟩)
  | true => frcTier2 env docId topK

/-- The vectorized-flag check of `findRelevantChunks` (`embeddingService.js`
139–142). -/
def frcVectorized (env : RetrievalEnv) (docId query : String) (topK : Nat)
    (doc : DocumentRecord) : Except String (List ChunkMatch) × RetrievalEffects :=
  match doc.vectorized with
  | false =>
    (.error "Failed to find relevant chunks: Document has not been vectorized",
      ⟨false, none⟩)
  | true => frcTiers env docId query topK

/-- `EmbeddingService.findRelevantChunks` entry point (`embeddingService.js`
131–135): registry lookup, then the steps above. -/
def findRelevantChunks (env : RetrievalEnv) (docId query : String) (topK : Nat) :
    Except String (List ChunkMatch) × RetrievalEffects :=
  match env.registry docId with
  | none => (.error "Failed to find relevant chunks: Document not found", ⟨false, none⟩)
  | some doc => frcVectorized env docId query topK doc

/-- The last-resort metadata filter of `QAService.askQuestion` (`qaService.js`
53–66): strict equality on any alias, or (JS truthiness, then) substring
containment of the requested id in the stored `documentId`. -/
def aliasEqOrIncludes (m : Metadata) (docId : String) : Bool :=
  decide (m.documentId = some docId) || decide (m.document_id = some docId) ||
    decide (m.id = some docId) ||
    (match m.documentId with
     | some s => decide (s ≠ "") && strContains s docId
     | none => false)

/-- The last-resort lexical scoring of `QAService.askQuestion` (`qaService.js`
70–96): score every matching chunk by term frequency (the term regexes may
throw), stably sort descending, keep the first `topK`.  Unlike Tier 1 there is
no special case for an empty term list. -/
def lastResortScore (rc : String → Except String (String → Nat)) (question : String)
    (matching : List Row) (topK : Nat) : Except String (List ChunkMatch) :=
  (matching.mapM (fun r =>
    (scoreContent rc (queryTerms question) (strLower r.content)).map (fun s => (r, s)))).map
    (fun scored => ((sortDesc Prod.snd scored).take topK).map
      (fun p => ⟨p.1.content, p.1.metadata⟩))

/-- Sentence splitting on `/[.!?]+/` (`qaService.js` 225, 278). -/
def sentenceSplit (s : String) : List String :=
  strSplit (fun c => c = '.' || c = '!' || c = '?') s

/-- The `Firstname Lastname` pattern of the "who" heuristic (`qaService.js` 241). -/
def namePattern : String := "([A-Z][a-z]+ [A-Z][a-z]+)"

/-- The date pattern of the "when" heuristic (`qaService.js` 251). -/
def datePattern : String :=
  "(\\d\x7b1,2\x7d[\\/\\-]\\d\x7b1,2\x7d[\\/\\-]\\d\x7b2,4\x7d|\\d\x7b4\x7d)"

/-- The gazetteer pattern of the "where" heuristic (`qaService.js` 261). -/
def locationPattern : String :=
  "([A-Z][a-z]+ (?:City|District|State|Country|Pune|Mumbai|Delhi))"

/-- `QAService._generateFallbackAnswer` (`qaService.js` 214–292): keyword-keyed
heuristic answer extraction used when the chat model throws.  `rma` models the
platform's `String.prototype.match` against the (fixed, valid) patterns:
`none` is a null match result. -/
def generateFallbackAnswer (rma : String → String → Option (List String))
    (question : String) (chunks : List ChunkMatch) : String :=
  let questionLower := strLower question
  let context := String.intercalate " " (chunks.map (fun c => c.pageContent))
  let whatAnswer : Option String :=
    if strContains questionLower "what" then
      let allSentences := chunks.flatMap (fun c =>
        ((sentenceSplit c.pageContent).filter (fun s => 20 < (strTrim s).length)).map
          strTrim)
      let relevantSentences := allSentences.take 5
      if relevantSentences.isEmpty = false then
        some (strTrim (String.intercalate ". " relevantSentences) ++ ".")
      else none
    else none
  match whatAnswer with
  | some a => a
  | none =>
    let whoAnswer : Option String :=
      if strContains questionLower "who" then
        match rma namePattern context with
        | some names =>
          if names.isEmpty = false then
            some (String.intercalate ", " (names.eraseDups.take 3) ++ ".")
          else none
        | none => none
      else none
    match whoAnswer with
    | some a => a
    | none =>
      let whenAnswer : Option String :=
        if strContains questionLower "when" then
          match rma datePattern context with
          | some dates =>
            if dates.isEmpty = false then
              some (String.intercalate ", " (dates.eraseDups.take 3) ++ ".")
            else none
          | none => none
        else none
      match whenAnswer with
      | some a => a
      | none =>
        let whereAnswer : Option String :=
          if strContains questionLower "where" then
            match rma locationPattern context with
            | some locations =>
              if locations.isEmpty = false then
                some (String.intercalate ", " (locations.eraseDups.take 3) ++ ".")
              else none
            | none => none
          else none
        match whereAnswer with
        | some a => a
        | none =>
          match chunks with
          | [] => "I don't have enough information to answer this question."
          | c :: _ =>
            let combinedContent := String.intercalate " "
              ((chunks.map (fun ch => strTrim ch.pageContent)).filter
                (fun s => 0 < s.length))
            let sentences := (((sentenceSplit combinedContent).filter
              (fun s => 30 < (strTrim s).length)).take 3).map strTrim
            if sentences.isEmpty = false then
              strTrim (String.intercalate ". " sentences) ++ "."
            else
              strTrim c.pageContent

/-- The collaborators `askQuestion` consumes beyond retrieval: the database's
serialization of stored metadata (`metadata::text`, for the `LIKE` query), the
chat model call's outcome, and the platform's regex match facility. -/
structure QAEnv where
  retrieval : RetrievalEnv
  serializeMeta : Metadata → String
  llmResult : Except String String
  regexMatchAll : String → String → Option (List String)

/-- The tail of `QAService.askQuestion` (`qaService.js` 109–165): with no
chunks, the fixed "couldn't find relevant information" answer; otherwise the
chat model's answer, degrading to `_generateFallbackAnswer` when the model
throws, together with the chunks as sources.  This part always resolves. -/
def answerFromChunks (env : QAEnv) (question : String) (chunks : List ChunkMatch) :
    Except String QAResult :=
  match chunks.isEmpty with
  | true =>
    .ok ⟨"I couldn't find relevant information in the document to answer your question.",
      []⟩
  | false =>
    .ok ⟨(match env.llmResult with
      | .ok a => a
      | .error _ => generateFallbackAnswer env.regexMatchAll question chunks),
      chunks.map (fun c => ⟨c.pageContent, c.metadata⟩)⟩

/-!
`QAService.askQuestion` (`qaService.js` 16–170): document checks, the
Relevance Retriever, the last-resort `LIKE`-based store query when the
retriever throws, answer synthesis; every error reaching the outer catch is
re-thrown as `Failed to process question: …`.  As with the retriever, the
function is written as a chain of small step functions, one per branch point
of the source.
-/

/-- The rows the last-resort `LIKE '%docId%'` query on `metadata::text`
returns (`qaService.js` 45–48). -/
def likeRowsOf (env : QAEnv) (docId : String) : List Row :=
  env.retrieval.store.filter (fun r => strContains (env.serializeMeta r.metadata) docId)

/-- The last-resort rows after the JS-side alias filter (`qaService.js` 53–66). -/
def matchingOf (env : QAEnv) (docId : String) : List Row :=
  (likeRowsOf env docId).filter (fun r => aliasEqOrIncludes r.metadata docId)

/-- The last-resort direct store query of `askQuestion` (`qaService.js`
39–106), entered when the retriever threw `e`. -/
def askLastResort (env : QAEnv) (docId question : String) (topK : Nat) (e : String) :
    Except String QAResult :=
  match (likeRowsOf env docId).isEmpty with
  | true =>
    .error ("Failed to process question: Unable to retrieve relevant content: " ++ e
      ++ ". Fallback also failed: No documents found in database")
  | false =>
    match (matchingOf env docId).isEmpty with
    | true =>
      .error ("Failed to process question: Unable to retrieve relevant content: "
        ++ e ++ ". Fallback also failed: No chunks found for document ID: " ++ docId)
    | false =>
      match lastResortScore env.retrieval.regexCompile question (matchingOf env docId)
        topK with
      | .error e2 =>
        .error ("Failed to process question: Unable to retrieve relevant content: "
          ++ e ++ ". Fallback also failed: " ++ e2)
      | .ok chunks => answerFromChunks env question chunks

/-- The retrieval step of `askQuestion` (`qaService.js` 29–107). -/
def askRetrieve (env : QAEnv) (docId question : String) (topK : Nat) :
    Except String QAResult :=
  match (findRelevantChunks env.retrieval docId question topK).1 with
  | .ok chunks => answerFromChunks env question chunks
  | .error e => askLastResort env docId question topK e

/-- The vectorized-flag check of `askQuestion` (`qaService.js` 24–26). -/
def askVectorized (env : QAEnv) (docId question : String) (topK : Nat)
    (doc : DocumentRecord) : Except String QAResult :=
  match doc.vectorized with
  | false =>
    .error "Failed to process question: Document has not been processed for Q&A yet"
  | true => askRetrieve env docId question topK

/-- `QAService.askQuestion` entry point (`qaService.js` 19–22). -/
def askQuestion (env : QAEnv) (docId question : String) (topK : Nat) :
    Except String QAResult :=
  match env.retrieval.registry docId with
  | none => .error ("Failed to process question: Document not found with ID: " ++ docId)
  | some doc => askVectorized env docId question topK doc

/-- The insert loop of `PostgresVectorStore.fromTexts` (`postgresVectorStore.js`
29–43): insert rows one at a time; the outcome of each `INSERT` is external
(`ins i`); the loop stops at the first failure, whose error propagates, and
already-inserted rows are not rolled back. -/
def insertAll (rows : List Row) (ins : Nat → Except String Unit) (i : Nat)
    (store : List Row) : Except String Unit × List Row :=
  match rows with
  | [] => (.ok (), store)
  | r :: rest =>
    match ins i with
    | .error e => (.error e, store)
    | .ok _ => insertAll rest ins (i + 1) (store ++ [r])

/-- The rows ingestion inserts for a document (`embeddingService.js` 62–75):
one per chunk, each tagged with the document id under all three aliases and the
document's name as source. -/
def ingestRows (docId : String) (doc : DocumentRecord) (chunks : List String)
    (vectors : List Vec) : List Row :=
  chunks.enum.map (fun p =>
    { content := p.2,
      metadata := { documentId := some docId, source := some doc.originalName,
                    document_id := some docId, id := some docId },
      embedding := vectors.getD p.1 [] })

/-- The result object of a successful ingestion (`embeddingService.js` 82–87). -/
structure IngestResult where
  documentId : String
  chunks : Nat
  collectionName : String
deriving DecidableEq

/-- The collaborators `createEmbeddings` consumes: registry and store state,
the connectivity probe's outcome, the text splitter's chunks (the splitter is
an external library), the Embedding Provider's vectors for the chunks, and the
outcome of each row `INSERT`. -/
structure IngestEnv where
  registry : String → Option DocumentRecord
  store : List Row
  pgConnect : Except String Unit
  splitChunks : List String
  vectors : List Vec
  insertOutcome : Nat → Except String Unit

/-- `EmbeddingService.createEmbeddings` (`embeddingService.js` 14–92): document
lookup, PostgreSQL connectivity probe (the pool-missing and connect-failure
throws collapse into `pgConnect`; schema-sync warnings do not block), chunk
insertion via `PostgresVectorStore.fromTexts`, and — only after every insert
succeeded — flipping the document's `vectorized` flag.  Every thrown message is
re-wrapped by the outer catch as `Failed to create embeddings: …`.  Returns the
result together with the registry and store after the call. -/
def createEmbeddings (env : IngestEnv) (docId : String) :
    Except String IngestResult × (String → Option DocumentRecord) × List Row :=
  match env.registry docId with
  | none => (.error "Failed to create embeddings: Document not found", env.registry,
      env.store)
  | some doc =>
    match env.pgConnect with
    | .error e =>
      (.error ("Failed to create embeddings: Failed to connect to PostgreSQL: " ++ e),
        env.registry, env.store)
    | .ok _ =>
      let rows := ingestRows docId doc env.splitChunks env.vectors
      match insertAll rows env.insertOutcome 0 env.store with
      | (.error e, store2) =>
        (.error ("Failed to create embeddings: " ++ e), env.registry, store2)
      | (.ok _, store2) =>
        (.ok ⟨docId, env.splitChunks.length, "documents"⟩,
          fun i => if i = docId then
              some { doc with vectorized := true, supabaseCollectionName := some "documents" }
            else env.registry i,
          store2)

/-- The Tier-1 relevance score of a row under a given per-term match counter:
the sum over the query terms of the number of matches in the row's lowercased
content. -/
def rowScore (cnt : String → String → Nat) (query : String) (r : Row) : Nat :=
  ((queryTerms query).map (fun t => cnt t (strLower r.content))).sum

/-- A JSON serialization of stored metadata in insertion order, the shape
`JSON.stringify` gave the inserted rows; used to instantiate the
`metadata::text` oracle on concrete inputs. -/
def jsonStringify (m : Metadata) : String :=
  "\x7b" ++ String.intercalate ","
    ([("documentId", m.documentId), ("source", m.source),
      ("document_id", m.document_id), ("id", m.id)].filterMap
      (fun p => p.2.map (fun v => "\"" ++ p.1 ++ "\":\"" ++ v ++ "\""))) ++ "\x7d"

/-- Sample registry entry: a vectorized document. -/
def sampleDoc : DocumentRecord := { vectorized := true, originalName := "sample.pdf" }

/-- Sample registry entry: a document that has not completed ingestion. -/
def sampleDocRaw : DocumentRecord := { vectorized := false, originalName := "raw.pdf" }

/-- Sample registry: `d1` is vectorized, `d0` is not, everything else unknown. -/
def sampleRegistry : String → Option DocumentRecord := fun i =>
  if i = "d1" then some sampleDoc else if i = "d0" then some sampleDocRaw else none

/-- Sample metadata tagging a chunk with document `d1` under all aliases. -/
def sampleMeta : Metadata :=
  { documentId := some "d1", source := some "sample.pdf",
    document_id := some "d1", id := some "d1" }

/-- Sample chunk rows for document `d1`. -/
def sampleRows : List Row :=
  [{ content := "invoice total 500 total", metadata := sampleMeta },
   { content := "shipping address", metadata := sampleMeta }]

/-- A regex engine on which every pattern behaves as a literal term. -/
def literalCompile : String → Except String (String → Nat) :=
  fun t => .ok (fun c => countOccurrences t c)

/-- A regex engine on which the pattern `c++` throws, as JavaScript's
`new RegExp("c++")` does, and every other pattern behaves as a literal. -/
def cppCompile : String → Except String (String → Nat) :=
  fun t =>
    if t = "c++" then .error "Invalid regular expression: /c++/g: Nothing to repeat"
    else .ok (fun c => countOccurrences t c)

/-- Sample retrieval environment whose store holds the `d1` chunks (Tier 1
succeeds). -/
def envTier1 : RetrievalEnv :=
  { registry := sampleRegistry, store := sampleRows, queryEmbedding := [],
    matchDocuments := fun _ _ _ => .ok [], regexCompile := literalCompile }

/-- Sample retrieval environment with an empty store and a null question
embedding (Tier 1 finds nothing; Tier 2 is skipped by the null-vector guard). -/
def envEmptyZero : RetrievalEnv :=
  { registry := sampleRegistry, store := [], queryEmbedding := [0],
    matchDocuments := fun _ _ _ => .ok [], regexCompile := literalCompile }

/-- Sample retrieval environment with an empty store, a usable question
embedding and a similarity query that returns the `d1` chunks. -/
def envVector : RetrievalEnv :=
  { registry := sampleRegistry, store := [], queryEmbedding := [1],
    matchDocuments := fun _ _ _ => .ok sampleRows, regexCompile := literalCompile }

/-- Sample retrieval environment whose store holds the `d1` chunks but whose
regex engine rejects the pattern `c++`. -/
def envCpp : RetrievalEnv :=
  { registry := sampleRegistry, store := sampleRows, queryEmbedding := [],
    matchDocuments := fun _ _ _ => .ok [], regexCompile := cppCompile }

/-- Sample QA environment on top of `envCpp`, with a working chat model. -/
def qenvCpp : QAEnv :=
  { retrieval := envCpp, serializeMeta := jsonStringify, llmResult := .ok "answer",
    regexMatchAll := fun _ _ => none }

/-- Sample QA environment on top of `envTier1`, with a failing chat model. -/
def qenvTier1 : QAEnv :=
  { retrieval := envTier1, serializeMeta := jsonStringify,
    llmResult := .error "fetch failed", regexMatchAll := fun _ _ => none }

/-- Sample ingestion environment whose second row `INSERT` fails. -/
def ingestEnvFail : IngestEnv :=
  { registry := sampleRegistry, store := [], pgConnect := .ok (),
    splitChunks := ["alpha", "beta"], vectors := [[1], [2]],
    insertOutcome := fun j => if j = 0 then .ok () else .error "insert failed" }

theorem length_zeroVector (dims : Nat) : (zeroVector dims).length = dims :=
  List.length_replicate ..

/-- Helper: the ceiling division used to model `Math.ceil(targetDim/originalDim)`
covers the target when repeated. -/
theorem le_ceil_mul {t o : Nat} (ho : 0 < o) : t ≤ (t + o - 1) / o * o := by
  have h := Nat.div_add_mod (t + o - 1) o
  have hm : (t + o - 1) % o < o := Nat.mod_lt _ ho
  rw [Nat.mul_comm]
  omega

/-- Resizing yields a vector of exactly the target length whenever it does not
throw and the target is positive. -/
theorem resizeEmbedding_length {e : Vec} {dims : Nat} {v : Vec}
    (h : resizeEmbedding e dims = .ok v) : v.length = dims := by
  unfold resizeEmbedding at h
  by_cases h1 : e.length = dims
  · simp only [h1, if_pos rfl] at h
    cases h
    exact h1
  · simp only [if_neg h1] at h
    by_cases h2 : dims < e.length
    · simp only [if_pos h2] at h
      by_cases h3 : e.length % dims = 0
      · simp only [if_pos h3] at h
        cases h
        simp
      · simp only [if_neg h3] at h
        cases h
        simp only [List.length_take]
        omega
    · simp only [if_neg h2] at h
      by_cases h4 : e.length = 0
      · simp [h4] at h
      · simp only [if_neg h4] at h
        cases h
        have hlen : ((dims + e.length - 1) / e.length * e.length) =
            (List.replicate ((dims + e.length - 1) / e.length) e).flatten.length := by
          simp [List.length_flatten, Function.comp, Nat.mul_comm]
        have hle : dims ≤ (List.replicate ((dims + e.length - 1) / e.length) e).flatten.length := by
          rw [← hlen]
          exact le_ceil_mul (Nat.pos_of_ne_zero h4)
        simp only [List.length_take]
        omega

/-- The elements of `zeroVector` are all zero. -/
theorem zeroVector_mem {dims : Nat} {x : ℚ} (h : x ∈ zeroVector dims) : x = 0 :=
  List.eq_of_mem_replicate h

/-- C8: resizing is idempotent — a vector whose length already equals the
target dimensionality is returned unchanged by `_resizeEmbedding`, so resizing
it twice equals resizing it once. -/
theorem resizeEmbedding_idempotent (e : Vec) (dims : Nat) (h : e.length = dims) :
    resizeEmbedding e dims = .ok e ∧
    (resizeEmbedding e dims).bind (fun v => resizeEmbedding v dims) =
      resizeEmbedding e dims := by
  have h1 : resizeEmbedding e dims = .ok e := by
    unfold resizeEmbedding
    simp [h]
  refine ⟨h1, ?_⟩
  rw [h1]
  exact h1

/-- Witness for `resizeEmbedding_idempotent` at a concrete vector. -/
theorem resizeEmbedding_idempotent_witness :
    resizeEmbedding [1, 2] 2 = .ok [1, 2] ∧
    (resizeEmbedding [1, 2] 2).bind (fun v => resizeEmbedding v 2) =
      resizeEmbedding [1, 2] 2 :=
  resizeEmbedding_idempotent [1, 2] 2 (by decide)

theorem addAt_length (v : List ℚ) (i : Nat) (x : ℚ) :
    (addAt v i x).length = v.length := by
  simp [addAt]

theorem scatterWord_length (dims wordsLen : Nat) (words : List String)
    (wordIndex : Nat) (w : String) (v : List ℚ) :
    (scatterWord dims wordsLen words wordIndex w v).length = v.length := by
  unfold scatterWord
  generalize List.range 16 = l
  induction l generalizing v with
  | nil => rfl
  | cons a as ih =>
    rw [List.foldl_cons, ih, addAt_length]

theorem pseudoRawVector_length (text : String) (dims : Nat) :
    (pseudoRawVector text dims).length = dims := by
  unfold pseudoRawVector
  have hscat : ∀ (l : List (Nat × String)) (v : List ℚ),
      (l.foldl (fun vec p => scatterWord dims (pseudoWords text).length
        (pseudoWords text) p.1 p.2 vec) v).length = v.length := by
    intro l
    induction l with
    | nil => intro v; rfl
    | cons a as ih =>
      intro v
      rw [List.foldl_cons, ih, scatterWord_length]
  have hbias : ∀ (l : List Nat) (v : List ℚ),
      (l.foldl (fun vec i =>
        if i % 200 = 0 then addAt vec i ((text.length : ℚ) / 10000) else vec) v).length
        = v.length := by
    intro l
    induction l with
    | nil => intro v; rfl
    | cons a as ih =>
      intro v
      rw [List.foldl_cons, ih]
      by_cases h : a % 200 = 0
      · rw [if_pos h, addAt_length]
      · rw [if_neg h]
  rw [hbias, hscat, List.length_replicate]

/-- C2: `embedQuery` returns a vector of length exactly the configured
dimensionality, for every combination of strategy outcomes (raw lengths are
resized) and also when every strategy fails; the hashing fallback itself also
produces exactly that length.  The positivity hypothesis holds in the source:
`fields.dimensions || 1536` can never set a zero dimensionality. -/
theorem embedQuery_length (methods : List (Except String Vec))
    (fallback : Except String Vec) (text : String) (dims : Nat) (_hD : 0 < dims) :
    (embedQuery methods fallback dims).length = dims ∧
    (generatePseudoEmbedding text dims).length = dims := by
  constructor
  · cases hg : generateEmbedding methods fallback with
    | error e => simp [embedQuery, hg, zeroVector]
    | ok e =>
      cases hr : resizeEmbedding e dims with
      | error msg => simp [embedQuery, hg, hr, zeroVector]
      | ok v =>
        have := resizeEmbedding_length hr
        simp [embedQuery, hg, hr, this]
  · rw [generatePseudoEmbedding, List.length_map, pseudoRawVector_length]

/-- Witness for `embedQuery_length` at concrete strategy outcomes. -/
theorem embedQuery_length_witness :
    (embedQuery [Except.ok [1, 2, 3]] (Except.error "x") 2).length = 2 ∧
    (generatePseudoEmbedding "hello" 2).length = 2 :=
  embedQuery_length [Except.ok [1, 2, 3]] (Except.error "x") "hello" 2 (by decide)

/-- If every strategy outcome is an error, the cascade falls through to the
hashing fallback's outcome. -/
theorem generateEmbedding_all_error {methods : List (Except String Vec)}
    (fallback : Except String Vec) (h : ∀ m ∈ methods, ∃ msg, m = .error msg) :
    generateEmbedding methods fallback = fallback := by
  induction methods with
  | nil => rfl
  | cons m rest ih =>
    obtain ⟨msg, hm⟩ := h m (List.mem_cons_self ..)
    subst hm
    exact ih (fun m hm => h m (List.mem_cons_of_mem _ hm))

/-- C7: the Embedding Provider never raises — a strategy's exception is caught
and the cascade continues with the remaining strategies in order, and on total
failure (every strategy's exception caught and the hashing fallback itself
throwing) `embedQuery` returns the all-zero vector of the configured length,
which the caller can detect as having no nonzero element. -/
theorem embedQuery_cascade (methods : List (Except String Vec))
    (fallback : Except String Vec) (dims : Nat) :
    (∀ msg rest, embedQuery (.error msg :: rest) fallback dims =
      embedQuery rest fallback dims) ∧
    ((∀ m ∈ methods, ∃ msg, m = .error msg) → (∃ msg, fallback = .error msg) →
      embedQuery methods fallback dims = zeroVector dims ∧
      ∀ x ∈ embedQuery methods fallback dims, x = 0) := by
  constructor
  · intro msg rest
    rfl
  · intro hall hfb
    obtain ⟨msg, hm⟩ := hfb
    have hz : embedQuery methods fallback dims = zeroVector dims := by
      unfold embedQuery
      rw [generateEmbedding_all_error fallback hall, hm]
    exact ⟨hz, fun x hx => zeroVector_mem (hz ▸ hx)⟩

/-- Witness for `embedQuery_cascade` on a cascade whose every stage fails. -/
theorem embedQuery_cascade_witness :
    embedQuery [Except.error "a"] (Except.error "b") 2 = zeroVector 2 ∧
    ∀ x ∈ embedQuery [Except.error "a"] (Except.error "b") 2, x = 0 :=
  (embedQuery_cascade [Except.error "a"] (Except.error "b") 2).2
    (by
      intro m hm
      rw [List.mem_singleton] at hm
      exact ⟨"a", hm⟩)
    ⟨"b", rfl⟩

theorem insertDesc_perm {α : Type} (keyOf : α → Nat) (x : α) (l : List α) :
    List.Perm (insertDesc keyOf x l) (x :: l) := by
  induction l with
  | nil => exact List.Perm.refl _
  | cons y ys ih =>
    unfold insertDesc
    by_cases h : keyOf y < keyOf x
    · rw [if_pos h]
    · rw [if_neg h]
      exact ((ih.cons y).trans (List.Perm.swap x y ys))

theorem insertDesc_sorted {α : Type} {keyOf : α → Nat} {l : List α} (x : α)
    (h : SortedDesc keyOf l) : SortedDesc keyOf (insertDesc keyOf x l) := by
  induction l with
  | nil => simp [insertDesc, SortedDesc]
  | cons y ys ih =>
    rw [SortedDesc, List.pairwise_cons] at h
    obtain ⟨hy, hys⟩ := h
    unfold insertDesc
    by_cases hlt : keyOf y < keyOf x
    · rw [if_pos hlt]
      rw [SortedDesc, List.pairwise_cons]
      refine ⟨?_, ?_⟩
      · intro z hz
        rcases List.mem_cons.1 hz with hz | hz
        · subst hz; exact Nat.le_of_lt hlt
        · exact Nat.le_trans (hy z hz) (Nat.le_of_lt hlt)
      · exact List.pairwise_cons.2 ⟨hy, hys⟩
    · rw [if_neg hlt]
      rw [SortedDesc, List.pairwise_cons]
      refine ⟨?_, ih hys⟩
      intro z hz
      have hz2 : z ∈ x :: ys := ((insertDesc_perm keyOf x ys).mem_iff).1 hz
      rcases List.mem_cons.1 hz2 with hz2 | hz2
      · subst hz2; exact Nat.le_of_not_lt hlt
      · exact hy z hz2

theorem sortDesc_foldl_sorted {α : Type} (keyOf : α → Nat) (l : List α) :
    ∀ acc : List α, SortedDesc keyOf acc →
      SortedDesc keyOf (l.foldl (fun a x => insertDesc keyOf x a) acc) := by
  induction l with
  | nil => intro acc h; exact h
  | cons x xs ih =>
    intro acc h
    rw [List.foldl_cons]
    exact ih _ (insertDesc_sorted x h)

/-- The model of the JS stable sort produces a descending-sorted list. -/
theorem sortDesc_sorted {α : Type} (keyOf : α → Nat) (l : List α) :
    SortedDesc keyOf (sortDesc keyOf l) :=
  sortDesc_foldl_sorted keyOf l [] (List.Pairwise.nil)

theorem sortDesc_foldl_perm {α : Type} (keyOf : α → Nat) (l : List α) :
    ∀ acc : List α,
      List.Perm (l.foldl (fun a x => insertDesc keyOf x a) acc) (acc ++ l) := by
  induction l with
  | nil =>
    intro acc
    rw [List.append_nil]
    exact List.Perm.refl _
  | cons x xs ih =>
    intro acc
    rw [List.foldl_cons]
    refine (ih (insertDesc keyOf x acc)).trans ?_
    have h1 : List.Perm (insertDesc keyOf x acc ++ xs) ((x :: acc) ++ xs) :=
      (insertDesc_perm keyOf x acc).append_right xs
    refine h1.trans ?_
    rw [List.cons_append]
    exact List.perm_middle.symm

/-- The model of the JS stable sort permutes its input. -/
theorem sortDesc_perm {α : Type} (keyOf : α → Nat) (l : List α) :
    List.Perm (sortDesc keyOf l) l :=
  sortDesc_foldl_perm keyOf l []

theorem insertDesc_filter {α : Type} {keyOf : α → Nat} (s : Nat) (x : α)
    {l : List α} (h : SortedDesc keyOf l) :
    (insertDesc keyOf x l).filter (fun y => decide (keyOf y = s)) =
      l.filter (fun y => decide (keyOf y = s)) ++
        (if keyOf x = s then [x] else []) := by
  induction l with
  | nil =>
    by_cases hx : keyOf x = s
    · simp [insertDesc, hx]
    · simp [insertDesc, hx]
  | cons y ys ih =>
    rw [SortedDesc, List.pairwise_cons] at h
    obtain ⟨hy, hys⟩ := h
    unfold insertDesc
    by_cases hlt : keyOf y < keyOf x
    · rw [if_pos hlt]
      by_cases hx : keyOf x = s
      · have hnil : (y :: ys).filter (fun z => decide (keyOf z = s)) = [] := by
          rw [List.filter_eq_nil_iff]
          intro z hz
          rcases List.mem_cons.1 hz with hz | hz
          · subst hz
            simp only [decide_eq_true_eq]
            omega
          · have := hy z hz
            simp only [decide_eq_true_eq]
            omega
        rw [hnil, if_pos hx]
        rw [List.filter_cons_of_pos (by simp [hx]), hnil]
        rfl
      · rw [if_neg hx, List.append_nil]
        rw [List.filter_cons_of_neg (by simp [hx])]
    · rw [if_neg hlt]
      by_cases hy2 : keyOf y = s
      · rw [List.filter_cons_of_pos (by simp [hy2]),
          List.filter_cons_of_pos (by simp [hy2]), ih hys, List.cons_append]
      · rw [List.filter_cons_of_neg (by simp [hy2]),
          List.filter_cons_of_neg (by simp [hy2]), ih hys]

theorem sortDesc_foldl_filter {α : Type} (keyOf : α → Nat) (s : Nat) (l : List α) :
    ∀ acc : List α, SortedDesc keyOf acc →
      (l.foldl (fun a x => insertDesc keyOf x a) acc).filter
          (fun y => decide (keyOf y = s)) =
        acc.filter (fun y => decide (keyOf y = s)) ++
          l.filter (fun y => decide (keyOf y = s)) := by
  induction l with
  | nil =>
    intro acc _
    rw [List.filter_nil, List.append_nil, List.foldl_nil]
  | cons x xs ih =>
    intro acc h
    rw [List.foldl_cons, ih _ (insertDesc_sorted x h), insertDesc_filter s x h]
    by_cases hx : keyOf x = s
    · rw [if_pos hx, List.filter_cons_of_pos (by simp [hx]), List.append_assoc]
      rfl
    · rw [if_neg hx, List.filter_cons_of_neg (by simp [hx]), List.append_nil]

/-- Stability of the sort model: elements of any given key keep their original
relative order (JS `Array.prototype.sort` is stable). -/
theorem sortDesc_stable {α : Type} (keyOf : α → Nat) (l : List α) (s : Nat) :
    (sortDesc keyOf l).filter (fun y => decide (keyOf y = s)) =
      l.filter (fun y => decide (keyOf y = s)) := by
  rw [sortDesc, sortDesc_foldl_filter keyOf s l [] List.Pairwise.nil, List.filter_nil,
    List.nil_append]

theorem insertDesc_map {α β : Type} (keyOf : β → Nat) (g : α → β) (x : α)
    (l : List α) :
    insertDesc keyOf (g x) (l.map g) = (insertDesc (fun a => keyOf (g a)) x l).map g := by
  induction l with
  | nil => rfl
  | cons y ys ih =>
    simp only [List.map_cons, insertDesc]
    by_cases h : keyOf (g y) < keyOf (g x)
    · rw [if_pos h, if_pos h, List.map_cons, List.map_cons]
    · rw [if_neg h, if_neg h, List.map_cons, ih]

/-- Sorting a mapped list by a key equals mapping the sort by the composed key. -/
theorem sortDesc_map {α β : Type} (keyOf : β → Nat) (g : α → β) (l : List α) :
    sortDesc keyOf (l.map g) = (sortDesc (fun a => keyOf (g a)) l).map g := by
  rw [sortDesc, sortDesc, List.foldl_map]
  have haux : ∀ (l' : List α) (acc : List α),
      l'.foldl (fun a x => insertDesc keyOf (g x) a) (acc.map g) =
        (l'.foldl (fun a x => insertDesc (fun b => keyOf (g b)) x a) acc).map g := by
    intro l'
    induction l' with
    | nil => intro acc; rfl
    | cons x xs ih =>
      intro acc
      rw [List.foldl_cons, List.foldl_cons, insertDesc_map, ih]
  exact haux l []

theorem exceptMap_ok {ε α β : Type} (f : α → β) (x : α) :
    Except.map f (.ok x : Except ε α) = .ok (f x) := rfl

theorem exceptMap_error {ε α β : Type} (f : α → β) (e : ε) :
    Except.map f (.error e : Except ε α) = (.error e : Except ε β) := rfl

theorem exceptBind_ok {ε α β : Type} (x : α) (f : α → Except ε β) :
    ((Except.ok x : Except ε α) >>= f) = f x := rfl

theorem exceptBind_error {ε α β : Type} (e : ε) (f : α → Except ε β) :
    ((Except.error e : Except ε α) >>= f) = .error e := rfl

theorem scoreContent_ok {rc : String → Except String (String → Nat)}
    {terms : List String} {cnt : String → String → Nat}
    (h : ∀ t ∈ terms, rc t = .ok (cnt t)) (content : String) :
    scoreContent rc terms content = .ok ((terms.map (fun t => cnt t content)).sum) := by
  unfold scoreContent
  have haux : ∀ (l : List String), (∀ t ∈ l, rc t = .ok (cnt t)) → ∀ (acc : Nat),
      l.foldlM (fun score term => (rc term).map (fun count => score + count content)) acc
        = .ok (acc + (l.map (fun t => cnt t content)).sum) := by
    intro l
    induction l with
    | nil =>
      intro _ acc
      rfl
    | cons t ts ih =>
      intro hl acc
      rw [List.foldlM_cons, hl t (List.mem_cons_self ..), exceptMap_ok, exceptBind_ok,
        ih (fun u hu => hl u (List.mem_cons_of_mem _ hu)) (acc + cnt t content),
        List.map_cons, List.sum_cons, Nat.add_assoc]
  rw [haux terms h 0, Nat.zero_add]

theorem scoreContent_error {rc : String → Except String (String → Nat)}
    {terms : List String} {t : String} (ht : t ∈ terms) {e : String}
    (he : rc t = .error e) (content : String) :
    ∃ msg, scoreContent rc terms content = .error msg := by
  unfold scoreContent
  have haux : ∀ (l : List String), t ∈ l → ∀ (acc : Nat),
      ∃ msg, l.foldlM
        (fun score term => (rc term).map (fun count => score + count content)) acc
          = .error msg := by
    intro l
    induction l with
    | nil => intro h; exact absurd h (List.not_mem_nil t)
    | cons u us ih =>
      intro hl acc
      rw [List.foldlM_cons]
      cases hu : rc u with
      | error msg =>
        exact ⟨msg, by rw [exceptMap_error, exceptBind_error]⟩
      | ok f =>
        rcases List.mem_cons.1 hl with hl | hl
        · subst hl
          rw [hu] at he
          exact absurd he (by intro hc; cases hc)
        · obtain ⟨msg, hmsg⟩ := ih hl (acc + f content)
          exact ⟨msg, by rw [exceptMap_ok, exceptBind_ok, hmsg]⟩
  exact haux terms ht 0

theorem mapM_score_ok {rc : String → Except String (String → Nat)}
    {terms : List String} {cnt : String → String → Nat}
    (h : ∀ t ∈ terms, rc t = .ok (cnt t)) (rows : List Row) :
    rows.mapM (fun r => (scoreContent rc terms (strLower r.content)).map (fun s => (r, s)))
      = .ok (rows.map
          (fun r => (r, (terms.map (fun t => cnt t (strLower r.content))).sum))) := by
  induction rows with
  | nil => rfl
  | cons r rest ih =>
    rw [List.mapM_cons, scoreContent_ok h (strLower r.content), exceptMap_ok, exceptBind_ok,
      ih, List.map_cons]
    rfl

theorem mapM_score_error {rc : String → Except String (String → Nat)}
    {terms : List String} {t : String} (ht : t ∈ terms) {e : String}
    (he : rc t = .error e) {rows : List Row} (hne : rows ≠ []) :
    ∃ msg, rows.mapM
      (fun r => (scoreContent rc terms (strLower r.content)).map (fun s => (r, s)))
        = .error msg := by
  cases rows with
  | nil => exact absurd rfl hne
  | cons r rest =>
    obtain ⟨msg, hmsg⟩ := scoreContent_error ht he (strLower r.content)
    exact ⟨msg, by rw [List.mapM_cons, hmsg, exceptMap_error, exceptBind_error]⟩

theorem findRelevantChunks_none {env : RetrievalEnv} {docId : String}
    (h : env.registry docId = none) (query : String) (topK : Nat) :
    findRelevantChunks env docId query topK =
      (.error "Failed to find relevant chunks: Document not found", ⟨false, none⟩) := by
  unfold findRelevantChunks
  rw [h]

theorem findRelevantChunks_some {env : RetrievalEnv} {docId : String}
    {doc : DocumentRecord} (h : env.registry docId = some doc) (query : String)
    (topK : Nat) :
    findRelevantChunks env docId query topK = frcVectorized env docId query topK doc := by
  unfold findRelevantChunks
  rw [h]

theorem frcVectorized_false {doc : DocumentRecord} (h : doc.vectorized = false)
    (env : RetrievalEnv) (docId query : String) (topK : Nat) :
    frcVectorized env docId query topK doc =
      (.error "Failed to find relevant chunks: Document has not been vectorized",
        ⟨false, none⟩) := by
  unfold frcVectorized
  rw [h]

theorem frcVectorized_true {doc : DocumentRecord} (h : doc.vectorized = true)
    (env : RetrievalEnv) (docId query : String) (topK : Nat) :
    frcVectorized env docId query topK doc = frcTiers env docId query topK := by
  unfold frcVectorized
  rw [h]

theorem frcTiers_tier1_ok {env : RetrievalEnv} {docId : String}
    (h : (directLookup env.store docId).isEmpty = false) {query : String} {topK : Nat}
    {ms : List ChunkMatch}
    (hok : tier1Results env.regexCompile query (directLookup env.store docId) topK
      = .ok ms) :
    frcTiers env docId query topK = (.ok ms, ⟨false, none⟩) := by
  unfold frcTiers
  rw [h, hok]

theorem frcTiers_tier1_error {env : RetrievalEnv} {docId : String}
    (h : (directLookup env.store docId).isEmpty = false) {query : String} {topK : Nat}
    {e : String}
    (herr : tier1Results env.regexCompile query (directLookup env.store docId) topK
      = .error e) :
    frcTiers env docId query topK =
      (.error ("Failed to find relevant chunks: " ++ e), ⟨false, none⟩) := by
  unfold frcTiers
  rw [h, herr]

theorem frcTiers_tier2 {env : RetrievalEnv} {docId : String}
    (h : (directLookup env.store docId).isEmpty = true) (query : String) (topK : Nat) :
    frcTiers env docId query topK = frcTier2 env docId topK := by
  unfold frcTiers
  rw [h]

theorem frcTier2_zero {env : RetrievalEnv}
    (h : env.queryEmbedding.any (fun v => decide (v ≠ 0)) = false) (docId : String)
    (topK : Nat) :
    frcTier2 env docId topK =
      (.error ("Failed to find relevant chunks: No chunks found for document ID: "
        ++ docId), ⟨true, none⟩) := by
  unfold frcTier2
  rw [h]

theorem frcTier2_ok {env : RetrievalEnv}
    (h : env.queryEmbedding.any (fun v => decide (v ≠ 0)) = true) {topK : Nat}
    {vrows : List Row}
    (hm : env.matchDocuments env.queryEmbedding (1 / 10) (topK * 2) = .ok vrows)
    (docId : String) :
    frcTier2 env docId topK = frcVecSearch docId topK vrows := by
  unfold frcTier2
  rw [h, hm]

theorem frcTier2_error {env : RetrievalEnv}
    (h : env.queryEmbedding.any (fun v => decide (v ≠ 0)) = true) {topK : Nat}
    {e : String}
    (hm : env.matchDocuments env.queryEmbedding (1 / 10) (topK * 2) = .error e)
    (docId : String) :
    frcTier2 env docId topK =
      (.error ("Failed to find relevant chunks: No chunks found for document ID: "
        ++ docId), ⟨true, some (1 / 10, topK * 2)⟩) := by
  unfold frcTier2
  rw [h, hm]

theorem frcVecSearch_empty {docId : String} {vrows : List Row}
    (h : (vrows.filter (fun r => aliasTruthyMatch r.metadata docId)).isEmpty = true)
    (topK : Nat) :
    frcVecSearch docId topK vrows =
      (.error ("Failed to find relevant chunks: No chunks found for document ID: "
        ++ docId), ⟨true, some (1 / 10, topK * 2)⟩) := by
  unfold frcVecSearch
  rw [h]

theorem frcVecSearch_found {docId : String} {vrows : List Row}
    (h : (vrows.filter (fun r => aliasTruthyMatch r.metadata docId)).isEmpty = false)
    (topK : Nat) :
    frcVecSearch docId topK vrows =
      (.ok (((vrows.filter (fun r => aliasTruthyMatch r.metadata docId)).take topK).map
        (fun r => ⟨r.content, r.metadata⟩)), ⟨true, some (1 / 10, topK * 2)⟩) := by
  unfold frcVecSearch
  rw [h]

theorem askQuestion_none {env : QAEnv} {docId : String}
    (h : env.retrieval.registry docId = none) (question : String) (topK : Nat) :
    askQuestion env docId question topK =
      .error ("Failed to process question: Document not found with ID: " ++ docId) := by
  unfold askQuestion
  rw [h]

theorem askQuestion_some {env : QAEnv} {docId : String} {doc : DocumentRecord}
    (h : env.retrieval.registry docId = some doc) (question : String) (topK : Nat) :
    askQuestion env docId question topK = askVectorized env docId question topK doc := by
  unfold askQuestion
  rw [h]

theorem askVectorized_false {doc : DocumentRecord} (h : doc.vectorized = false)
    (env : QAEnv) (docId question : String) (topK : Nat) :
    askVectorized env docId question topK doc =
      .error "Failed to process question: Document has not been processed for Q&A yet" := by
  unfold askVectorized
  rw [h]

theorem askVectorized_true {doc : DocumentRecord} (h : doc.vectorized = true)
    (env : QAEnv) (docId question : String) (topK : Nat) :
    askVectorized env docId question topK doc = askRetrieve env docId question topK := by
  unfold askVectorized
  rw [h]

theorem askRetrieve_ok {env : QAEnv} {docId question : String} {topK : Nat}
    {chunks : List ChunkMatch}
    (h : (findRelevantChunks env.retrieval docId question topK).1 = .ok chunks) :
    askRetrieve env docId question topK = answerFromChunks env question chunks := by
  unfold askRetrieve
  rw [h]

theorem askRetrieve_error {env : QAEnv} {docId question : String} {topK : Nat}
    {e : String}
    (h : (findRelevantChunks env.retrieval docId question topK).1 = .error e) :
    askRetrieve env docId question topK = askLastResort env docId question topK e := by
  unfold askRetrieve
  rw [h]

theorem askLastResort_noRows {env : QAEnv} {docId : String}
    (h : (likeRowsOf env docId).isEmpty = true) (question : String) (topK : Nat)
    (e : String) :
    askLastResort env docId question topK e =
      .error ("Failed to process question: Unable to retrieve relevant content: " ++ e
        ++ ". Fallback also failed: No documents found in database") := by
  unfold askLastResort
  rw [h]

theorem askLastResort_noMatching {env : QAEnv} {docId : String}
    (hlike : (likeRowsOf env docId).isEmpty = false)
    (hmat : (matchingOf env docId).isEmpty = true) (question : String) (topK : Nat)
    (e : String) :
    askLastResort env docId question topK e =
      .error ("Failed to process question: Unable to retrieve relevant content: " ++ e
        ++ ". Fallback also failed: No chunks found for document ID: " ++ docId) := by
  unfold askLastResort
  rw [hlike, hmat]

theorem askLastResort_scoreError {env : QAEnv} {docId : String}
    (hlike : (likeRowsOf env docId).isEmpty = false)
    (hmat : (matchingOf env docId).isEmpty = false) {question : String} {topK : Nat}
    {e2 : String}
    (hscore : lastResortScore env.retrieval.regexCompile question (matchingOf env docId)
      topK = .error e2) (e : String) :
    askLastResort env docId question topK e =
      .error ("Failed to process question: Unable to retrieve relevant content: " ++ e
        ++ ". Fallback also failed: " ++ e2) := by
  unfold askLastResort
  rw [hlike, hmat, hscore]

theorem askLastResort_scored {env : QAEnv} {docId : String}
    (hlike : (likeRowsOf env docId).isEmpty = false)
    (hmat : (matchingOf env docId).isEmpty = false) {question : String} {topK : Nat}
    {chunks : List ChunkMatch}
    (hscore : lastResortScore env.retrieval.regexCompile question (matchingOf env docId)
      topK = .ok chunks) (e : String) :
    askLastResort env docId question topK e = answerFromChunks env question chunks := by
  unfold askLastResort
  rw [hlike, hmat, hscore]

/-- `answerFromChunks` always resolves, whatever the chat model did. -/
theorem answerFromChunks_resolves (env : QAEnv) (question : String)
    (chunks : List ChunkMatch) :
    ∃ r, answerFromChunks env question chunks = .ok r := by
  unfold answerFromChunks
  cases hc : chunks.isEmpty with
  | true => exact ⟨_, rfl⟩
  | false => exact ⟨_, rfl⟩

/-- C6: whenever the Tier-1 direct metadata lookup finds at least one row,
vector search — and hence the Embedding Provider — is not invoked, and the
result is the top `topK` rows under term-frequency scoring: with `cnt` the
per-term regex match counter, a row scores the sum over the lowercase question
terms of length `> 2` of the match count in its lowercased content, rows are
sorted descending by score by a stable sort (ties keep retrieval order, as the
permutation/sortedness/stability conjuncts make precise), and if the question
yields no usable terms the first `topK` rows are returned unscored. -/
theorem tier1_lexical_ranking (env : RetrievalEnv) (docId query : String)
    (topK : Nat) (doc : DocumentRecord) (hdoc : env.registry docId = some doc)
    (hvec : doc.vectorized = true) (hne : directLookup env.store docId ≠ []) :
    (queryTerms query = [] →
      findRelevantChunks env docId query topK =
        (.ok (((directLookup env.store docId).take topK).map
          (fun r => ⟨r.content, r.metadata⟩)), ⟨false, none⟩)) ∧
    (∀ cnt : String → String → Nat,
      (∀ t ∈ queryTerms query, env.regexCompile t = .ok (cnt t)) →
      queryTerms query ≠ [] →
      findRelevantChunks env docId query topK =
        (.ok (((sortDesc (rowScore cnt query) (directLookup env.store docId)).take
          topK).map (fun r => ⟨r.content, r.metadata⟩)), ⟨false, none⟩) ∧
      SortedDesc (rowScore cnt query)
        (sortDesc (rowScore cnt query) (directLookup env.store docId)) ∧
      List.Perm (sortDesc (rowScore cnt query) (directLookup env.store docId))
        (directLookup env.store docId) ∧
      ∀ s, (sortDesc (rowScore cnt query) (directLookup env.store docId)).filter
          (fun r => decide (rowScore cnt query r = s)) =
        (directLookup env.store docId).filter
          (fun r => decide (rowScore cnt query r = s))) := by
  have hEmpty : (directLookup env.store docId).isEmpty = false := by
    cases hcase : directLookup env.store docId with
    | nil => exact absurd hcase hne
    | cons a l => rfl
  constructor
  · intro hterms
    have ht1 : tier1Results env.regexCompile query (directLookup env.store docId) topK =
        .ok (((directLookup env.store docId).take topK).map
          (fun r => ⟨r.content, r.metadata⟩)) := by
      unfold tier1Results
      rw [hterms]
      rfl
    rw [findRelevantChunks_some hdoc, frcVectorized_true hvec, frcTiers_tier1_ok hEmpty ht1]
  · intro cnt hcnt hterms
    have hTermsEmpty : (queryTerms query).isEmpty = false := by
      cases hcase : queryTerms query with
      | nil => exact absurd hcase hterms
      | cons a l => rfl
    have hstep : tier1Results env.regexCompile query (directLookup env.store docId) topK
        = ((directLookup env.store docId).mapM (fun r =>
            (scoreContent env.regexCompile (queryTerms query) (strLower r.content)).map
              (fun s => (r, s)))).map
            (fun scored => ((sortDesc Prod.snd scored).take topK).map
              (fun p => ⟨p.1.content, p.1.metadata⟩)) := by
      unfold tier1Results
      rw [hTermsEmpty]
    have ht1 : tier1Results env.regexCompile query (directLookup env.store docId) topK =
        .ok (((sortDesc (rowScore cnt query) (directLookup env.store docId)).take
          topK).map (fun r => ⟨r.content, r.metadata⟩)) := by
      rw [hstep, mapM_score_ok hcnt, exceptMap_ok]
      have hmap : (directLookup env.store docId).map
          (fun r => (r, ((queryTerms query).map (fun t => cnt t (strLower r.content))).sum))
            = (directLookup env.store docId).map
              (fun r => (r, rowScore cnt query r)) := rfl
      rw [hmap, sortDesc_map (fun p => p.2) (fun r => (r, rowScore cnt query r)),
        ← List.map_take, List.map_map]
      rfl
    refine ⟨?_, sortDesc_sorted _ _, sortDesc_perm _ _, fun s => sortDesc_stable _ _ s⟩
    rw [findRelevantChunks_some hdoc, frcVectorized_true hvec, frcTiers_tier1_ok hEmpty ht1]

/-- Witness for `tier1_lexical_ranking`: for the sample document the chunk
`invoice total 500 total` (score 3) outranks `shipping address` (score 0). -/
theorem tier1_lexical_ranking_witness :
    findRelevantChunks envTier1 "d1" "what is the total" 5 =
      (.ok [⟨"invoice total 500 total", sampleMeta⟩, ⟨"shipping address", sampleMeta⟩],
        ⟨false, none⟩) := by
  have h := (tier1_lexical_ranking envTier1 "d1" "what is the total" 5 sampleDoc
    (by rfl) (by rfl) (by decide)).2 (fun t c => countOccurrences t c)
    (fun t _ => rfl) (by decide)
  rw [h.1]
  decide

/-- C4 counterexample: for a vectorized, known document (`d1`) with no matching
content, `findRelevantChunks` rejects with the `No chunks found` error — it
does not return an empty list as the claim states. -/
theorem findRelevantChunks_throws_not_empty :
    (findRelevantChunks envEmptyZero "d1" "question" 5).1 =
      .error "Failed to find relevant chunks: No chunks found for document ID: d1" ∧
    (findRelevantChunks envEmptyZero "d1" "question" 5).1 ≠ .ok [] := by
  constructor
  · decide
  · decide

/-- C4 (amended): `findRelevantChunks` fails with the `NotFound` error when the
document id is unknown, with the `NotVectorized` error when the parent document
has not completed ingestion, and otherwise — for a vectorized, known document
with no matching content in either tier — it fails with the `NoChunksFound`
error rather than returning an empty list. -/
theorem findRelevantChunks_error_contract (env : RetrievalEnv)
    (docId query : String) (topK : Nat) :
    (env.registry docId = none →
      findRelevantChunks env docId query topK =
        (.error "Failed to find relevant chunks: Document not found", ⟨false, none⟩)) ∧
    (∀ doc, env.registry docId = some doc → doc.vectorized = false →
      findRelevantChunks env docId query topK =
        (.error "Failed to find relevant chunks: Document has not been vectorized",
          ⟨false, none⟩)) ∧
    (∀ doc, env.registry docId = some doc → doc.vectorized = true →
      directLookup env.store docId = [] →
      (∀ rows, env.matchDocuments env.queryEmbedding (1 / 10) (topK * 2) = .ok rows →
        rows.filter (fun r => aliasTruthyMatch r.metadata docId) = []) →
      (findRelevantChunks env docId query topK).1 =
        .error ("Failed to find relevant chunks: No chunks found for document ID: "
          ++ docId)) := by
  refine ⟨?_, ?_, ?_⟩
  · intro hnone
    exact findRelevantChunks_none hnone query topK
  · intro doc hdoc hvec
    rw [findRelevantChunks_some hdoc, frcVectorized_false hvec]
  · intro doc hdoc hvec hdirect hfilter
    have hT1 : (directLookup env.store docId).isEmpty = true := by rw [hdirect]; rfl
    cases hany : env.queryEmbedding.any (fun v => decide (v ≠ 0)) with
    | false =>
      rw [findRelevantChunks_some hdoc, frcVectorized_true hvec, frcTiers_tier2 hT1,
        frcTier2_zero hany]
    | true =>
      cases hmatch : env.matchDocuments env.queryEmbedding (1 / 10) (topK * 2) with
      | error e =>
        rw [findRelevantChunks_some hdoc, frcVectorized_true hvec, frcTiers_tier2 hT1,
          frcTier2_error hany hmatch]
      | ok rows =>
        have hf : (rows.filter (fun r => aliasTruthyMatch r.metadata docId)).isEmpty
            = true := by rw [hfilter rows hmatch]; rfl
        rw [findRelevantChunks_some hdoc, frcVectorized_true hvec, frcTiers_tier2 hT1,
          frcTier2_ok hany hmatch, frcVecSearch_empty hf]

/-- Witness for `findRelevantChunks_error_contract` at the three sample
documents: unknown `dx`, unvectorized `d0`, vectorized `d1` with empty store. -/
theorem findRelevantChunks_error_contract_witness :
    findRelevantChunks envEmptyZero "dx" "q" 5 =
      (.error "Failed to find relevant chunks: Document not found", ⟨false, none⟩) ∧
    findRelevantChunks envEmptyZero "d0" "q" 5 =
      (.error "Failed to find relevant chunks: Document has not been vectorized",
        ⟨false, none⟩) ∧
    (findRelevantChunks envEmptyZero "d1" "q" 5).1 =
      .error "Failed to find relevant chunks: No chunks found for document ID: d1" :=
  ⟨(findRelevantChunks_error_contract envEmptyZero "dx" "q" 5).1 rfl,
   (findRelevantChunks_error_contract envEmptyZero "d0" "q" 5).2.1 sampleDocRaw rfl rfl,
   (findRelevantChunks_error_contract envEmptyZero "d1" "q" 5).2.2 sampleDoc rfl rfl
     (by decide) (fun rows h => by cases h; rfl)⟩

/-- C5: in Tier 2, if the question's embedding is the all-zero null vector,
vector search is skipped (no similarity query is issued) and the operation
fails with `NoChunksFound`; otherwise the store is queried with arguments
`(0.1, topK*2)`, the returned rows are post-filtered to those whose metadata
aliases match the requested document, an empty post-filtered set fails with
`NoChunksFound`, and a non-empty one yields its first `topK` rows. -/
theorem tier2_vector_fallback (env : RetrievalEnv) (docId query : String)
    (topK : Nat) (doc : DocumentRecord) (hdoc : env.registry docId = some doc)
    (hvec : doc.vectorized = true) (hdirect : directLookup env.store docId = []) :
    ((∀ v ∈ env.queryEmbedding, v = 0) →
      findRelevantChunks env docId query topK =
        (.error ("Failed to find relevant chunks: No chunks found for document ID: "
          ++ docId), ⟨true, none⟩)) ∧
    ((∃ v ∈ env.queryEmbedding, v ≠ 0) →
      ((findRelevantChunks env docId query topK).2.vectorSearch =
        some (1 / 10, topK * 2)) ∧
      (∀ rows, env.matchDocuments env.queryEmbedding (1 / 10) (topK * 2) = .ok rows →
        (rows.filter (fun r => aliasTruthyMatch r.metadata docId) = [] →
          findRelevantChunks env docId query topK =
            (.error ("Failed to find relevant chunks: No chunks found for document ID: "
              ++ docId), ⟨true, some (1 / 10, topK * 2)⟩)) ∧
        (rows.filter (fun r => aliasTruthyMatch r.metadata docId) ≠ [] →
          findRelevantChunks env docId query topK =
            (.ok (((rows.filter (fun r => aliasTruthyMatch r.metadata docId)).take
              topK).map (fun r => ⟨r.content, r.metadata⟩)),
              ⟨true, some (1 / 10, topK * 2)⟩)))) := by
  have hT1 : (directLookup env.store docId).isEmpty = true := by rw [hdirect]; rfl
  constructor
  · intro hzero
    have hany : env.queryEmbedding.any (fun v => decide (v ≠ 0)) = false := by
      rw [List.any_eq_false]
      intro v hv
      simp [hzero v hv]
    rw [findRelevantChunks_some hdoc, frcVectorized_true hvec, frcTiers_tier2 hT1,
      frcTier2_zero hany]
  · intro hnz
    have hany : env.queryEmbedding.any (fun v => decide (v ≠ 0)) = true := by
      rw [List.any_eq_true]
      obtain ⟨v, hv, hvne⟩ := hnz
      exact ⟨v, hv, by simp [hvne]⟩
    cases hmatch : env.matchDocuments env.queryEmbedding (1 / 10) (topK * 2) with
    | error e =>
      refine ⟨?_, ?_⟩
      · rw [findRelevantChunks_some hdoc, frcVectorized_true hvec, frcTiers_tier2 hT1,
          frcTier2_error hany hmatch]
      · intro rows hrows
        exact Except.noConfusion hrows
    | ok rows0 =>
      refine ⟨?_, ?_⟩
      · cases hf : (rows0.filter (fun r => aliasTruthyMatch r.metadata docId)).isEmpty
          with
        | false =>
          rw [findRelevantChunks_some hdoc, frcVectorized_true hvec, frcTiers_tier2 hT1,
            frcTier2_ok hany hmatch, frcVecSearch_found hf]
        | true =>
          rw [findRelevantChunks_some hdoc, frcVectorized_true hvec, frcTiers_tier2 hT1,
            frcTier2_ok hany hmatch, frcVecSearch_empty hf]
      · intro rows hrows
        injection hrows with hr
        subst hr
        constructor
        · intro hfe
          have hf : (rows0.filter (fun r => aliasTruthyMatch r.metadata docId)).isEmpty
              = true := by rw [hfe]; rfl
          rw [findRelevantChunks_some hdoc, frcVectorized_true hvec, frcTiers_tier2 hT1,
            frcTier2_ok hany hmatch, frcVecSearch_empty hf]
        · intro hfne
          have hf : (rows0.filter (fun r => aliasTruthyMatch r.metadata docId)).isEmpty
              = false := by
            cases hc : rows0.filter (fun r => aliasTruthyMatch r.metadata docId) with
            | nil => exact absurd hc hfne
            | cons a l => rfl
          rw [findRelevantChunks_some hdoc, frcVectorized_true hvec, frcTiers_tier2 hT1,
            frcTier2_ok hany hmatch, frcVecSearch_found hf]

/-- Witness for `tier2_vector_fallback`: with a usable embedding and a
similarity query returning the `d1` rows, the post-filtered rows are returned
and the query arguments are `(0.1, 10)`. -/
theorem tier2_vector_fallback_witness :
    findRelevantChunks envVector "d1" "anything at all" 5 =
      (.ok [⟨"invoice total 500 total", sampleMeta⟩,
        ⟨"shipping address", sampleMeta⟩], ⟨true, some (1 / 10, 10)⟩) := by
  have h := ((tier2_vector_fallback envVector "d1" "anything at all" 5 sampleDoc rfl
    rfl (by decide)).2 ⟨1, by decide, by decide⟩).2 sampleRows rfl
  exact (h.2 (by decide)).trans (by rfl)

/-- C9: Tier-1 scoring compiles each question term as an unescaped regular
expression, so a question containing a whitespace-delimited term of more than
two characters that is invalid regex syntax (such as `c++`) makes the scoring
throw and retrieval fail even when chunks tagged with the requested document
exist; the same holds for the last-resort fallback scoring in `askQuestion`. -/
theorem regex_term_failure (qenv : QAEnv) (docId question : String) (topK : Nat)
    (doc : DocumentRecord) (hdoc : qenv.retrieval.registry docId = some doc)
    (hvec : doc.vectorized = true) (t : String) (ht : t ∈ queryTerms question)
    (e : String) (hbad : qenv.retrieval.regexCompile t = .error e) :
    (directLookup qenv.retrieval.store docId ≠ [] →
      ∃ msg, (findRelevantChunks qenv.retrieval docId question topK).1 = .error msg) ∧
    (∀ err, (findRelevantChunks qenv.retrieval docId question topK).1 = .error err →
      matchingOf qenv docId ≠ [] →
      ∃ msg, askQuestion qenv docId question topK = .error msg) := by
  have hterms : (queryTerms question).isEmpty = false := by
    cases hcase : queryTerms question with
    | nil => rw [hcase] at ht; exact absurd ht (List.not_mem_nil t)
    | cons a l => rfl
  constructor
  · intro hne
    have hEmpty : (directLookup qenv.retrieval.store docId).isEmpty = false := by
      cases hcase : directLookup qenv.retrieval.store docId with
      | nil => exact absurd hcase hne
      | cons a l => rfl
    obtain ⟨msg, hmsg⟩ := mapM_score_error ht hbad hne
    have hstep : tier1Results qenv.retrieval.regexCompile question
        (directLookup qenv.retrieval.store docId) topK
        = ((directLookup qenv.retrieval.store docId).mapM (fun r =>
            (scoreContent qenv.retrieval.regexCompile (queryTerms question)
              (strLower r.content)).map (fun s => (r, s)))).map
            (fun scored => ((sortDesc Prod.snd scored).take topK).map
              (fun p => ⟨p.1.content, p.1.metadata⟩)) := by
      unfold tier1Results
      rw [hterms]
    have ht1 : tier1Results qenv.retrieval.regexCompile question
        (directLookup qenv.retrieval.store docId) topK = .error msg := by
      rw [hstep, hmsg, exceptMap_error]
    exact ⟨"Failed to find relevant chunks: " ++ msg,
      by rw [findRelevantChunks_some hdoc, frcVectorized_true hvec,
        frcTiers_tier1_error hEmpty ht1]⟩
  · intro err herr hmatching
    have hlike : (likeRowsOf qenv docId).isEmpty = false := by
      cases hcase : likeRowsOf qenv docId with
      | nil =>
        rw [matchingOf, hcase] at hmatching
        exact absurd rfl hmatching
      | cons a l => rfl
    have hmat : (matchingOf qenv docId).isEmpty = false := by
      cases hcase : matchingOf qenv docId with
      | nil => exact absurd hcase hmatching
      | cons a l => rfl
    obtain ⟨msg2, hmsg2⟩ := mapM_score_error ht hbad hmatching
    have hlast : lastResortScore qenv.retrieval.regexCompile question
        (matchingOf qenv docId) topK = .error msg2 := by
      unfold lastResortScore
      rw [hmsg2, exceptMap_error]
    refine ⟨"Failed to process question: Unable to retrieve relevant content: " ++ err
      ++ ". Fallback also failed: " ++ msg2, ?_⟩
    rw [askQuestion_some hdoc, askVectorized_true hvec, askRetrieve_error herr,
      askLastResort_scoreError hlike hmat hlast]

/-- Witness for `regex_term_failure`: the question `what is c++` fails both the
Tier-1 scoring and the last-resort fallback on the sample store. -/
theorem regex_term_failure_witness :
    (∃ msg, (findRelevantChunks qenvCpp.retrieval "d1" "what is c++" 5).1 =
      .error msg) ∧
    (∃ msg, askQuestion qenvCpp "d1" "what is c++" 5 = .error msg) := by
  have h := regex_term_failure qenvCpp "d1" "what is c++" 5 sampleDoc rfl rfl
    "c++" (by decide) "Invalid regular expression: /c++/g: Nothing to repeat" rfl
  refine ⟨h.1 (by decide), ?_⟩
  exact h.2
    "Failed to find relevant chunks: Invalid regular expression: /c++/g: Nothing to repeat"
    (by decide) (by decide)

/-- C1 counterexample: for an unknown document id the Answer Synthesizer
rejects (`Failed to process question: …`) instead of resolving to an
`{answer, sources}` object. -/
theorem askQuestion_rejects_unknown :
    askQuestion qenvCpp "dx" "q" 5 =
      .error "Failed to process question: Document not found with ID: dx" ∧
    ∀ r, askQuestion qenvCpp "dx" "q" 5 ≠ .ok r := by
  have h1 : askQuestion qenvCpp "dx" "q" 5 =
      .error "Failed to process question: Document not found with ID: dx" := by decide
  exact ⟨h1, fun r hr => Except.noConfusion (h1.symm.trans hr)⟩

/-- C1 (amended): `askQuestion` resolves to an `{answer, sources}` object
whenever the document is known and vectorized and either the retriever
succeeds or the last-resort query finds matching chunks whose scoring
succeeds (the chat model may fail — the answer degrades); it rejects with an
error when the document is unknown, when the document has not been
vectorized, and when the retriever fails and the last-resort query finds no
matching chunks. -/
theorem askQuestion_contract (env : QAEnv) (docId question : String) (topK : Nat) :
    (env.retrieval.registry docId = none →
      askQuestion env docId question topK =
        .error ("Failed to process question: Document not found with ID: " ++ docId)) ∧
    (∀ doc, env.retrieval.registry docId = some doc → doc.vectorized = false →
      askQuestion env docId question topK =
        .error "Failed to process question: Document has not been processed for Q&A yet") ∧
    (∀ doc chunks, env.retrieval.registry docId = some doc → doc.vectorized = true →
      (findRelevantChunks env.retrieval docId question topK).1 = .ok chunks →
      ∃ r, askQuestion env docId question topK = .ok r) ∧
    (∀ doc e, env.retrieval.registry docId = some doc → doc.vectorized = true →
      (findRelevantChunks env.retrieval docId question topK).1 = .error e →
      matchingOf env docId = [] →
      ∃ msg, askQuestion env docId question topK = .error msg) ∧
    (∀ doc e chunks, env.retrieval.registry docId = some doc → doc.vectorized = true →
      (findRelevantChunks env.retrieval docId question topK).1 = .error e →
      (matchingOf env docId).isEmpty = false →
      lastResortScore env.retrieval.regexCompile question (matchingOf env docId) topK
        = .ok chunks →
      ∃ r, askQuestion env docId question topK = .ok r) := by
  refine ⟨?_, ?_, ?_, ?_, ?_⟩
  · intro hnone
    exact askQuestion_none hnone question topK
  · intro doc hdoc hvec
    rw [askQuestion_some hdoc, askVectorized_false hvec]
  · intro doc chunks hdoc hvec hok
    obtain ⟨r, hr⟩ := answerFromChunks_resolves env question chunks
    refine ⟨r, ?_⟩
    rw [askQuestion_some hdoc, askVectorized_true hvec, askRetrieve_ok hok, hr]
  · intro doc e hdoc hvec herr hmat
    cases hlr : (likeRowsOf env docId).isEmpty with
    | true =>
      refine ⟨"Failed to process question: Unable to retrieve relevant content: " ++ e
        ++ ". Fallback also failed: No documents found in database", ?_⟩
      rw [askQuestion_some hdoc, askVectorized_true hvec, askRetrieve_error herr,
        askLastResort_noRows hlr]
    | false =>
      have hm : (matchingOf env docId).isEmpty = true := by rw [hmat]; rfl
      refine ⟨"Failed to process question: Unable to retrieve relevant content: " ++ e
        ++ ". Fallback also failed: No chunks found for document ID: " ++ docId, ?_⟩
      rw [askQuestion_some hdoc, askVectorized_true hvec, askRetrieve_error herr,
        askLastResort_noMatching hlr hm]
  · intro doc e chunks hdoc hvec herr hmatne hscore
    have hlike : (likeRowsOf env docId).isEmpty = false := by
      cases hc : likeRowsOf env docId with
      | nil =>
        rw [matchingOf, hc, List.filter_nil] at hmatne
        exact absurd hmatne (by decide)
      | cons a l => rfl
    obtain ⟨r, hr⟩ := answerFromChunks_resolves env question chunks
    refine ⟨r, ?_⟩
    rw [askQuestion_some hdoc, askVectorized_true hvec, askRetrieve_error herr,
      askLastResort_scored hlike hmatne hscore, hr]

/-- Witness for `askQuestion_contract`: with the sample store, an unknown id
rejects and the vectorized `d1` resolves even though the chat model fails. -/
theorem askQuestion_contract_witness :
    askQuestion qenvTier1 "dx" "what is the total" 5 =
      .error "Failed to process question: Document not found with ID: dx" ∧
    ∃ r, askQuestion qenvTier1 "d1" "what is the total" 5 = .ok r :=
  ⟨(askQuestion_contract qenvTier1 "dx" "what is the total" 5).1 rfl,
   (askQuestion_contract qenvTier1 "d1" "what is the total" 5).2.2.1 sampleDoc
     [⟨"invoice total 500 total", sampleMeta⟩, ⟨"shipping address", sampleMeta⟩]
     rfl rfl (by decide)⟩

theorem insertAll_ok_inv {rows : List Row} {ins : Nat → Except String Unit} :
    ∀ {i : Nat} {store store2 : List Row} {u : Unit},
      insertAll rows ins i store = (.ok u, store2) →
      store2 = store ++ rows ∧ ∀ j, j < rows.length → ∃ w, ins (i + j) = .ok w := by
  induction rows with
  | nil =>
    intro i store store2 u h
    unfold insertAll at h
    rw [Prod.mk.injEq] at h
    refine ⟨h.2.symm.trans (List.append_nil store).symm, ?_⟩
    intro j hj
    exact absurd hj (Nat.not_lt_zero j)
  | cons r rest ih =>
    intro i store store2 u h
    unfold insertAll at h
    cases hi : ins i with
    | error e =>
      rw [hi] at h
      rw [Prod.mk.injEq] at h
      exact Except.noConfusion h.1
    | ok w =>
      rw [hi] at h
      obtain ⟨hstore, hall⟩ := ih h
      refine ⟨by rw [hstore, List.append_assoc]; rfl, ?_⟩
      intro j hj
      cases j with
      | zero => exact ⟨w, by rw [Nat.add_zero]; exact hi⟩
      | succ j' =>
        obtain ⟨w', hw'⟩ := hall j' (by rw [List.length_cons] at hj; omega)
        exact ⟨w', by rw [show i + (j' + 1) = i + 1 + j' by omega]; exact hw'⟩

theorem insertAll_fail {rows : List Row} {ins : Nat → Except String Unit} :
    ∀ {i : Nat} {store : List Row} {k : Nat} {e : String},
      k < rows.length → ins (i + k) = .error e →
      (∀ j, j < k → ∃ u, ins (i + j) = .ok u) →
      insertAll rows ins i store = (.error e, store ++ rows.take k) := by
  induction rows with
  | nil =>
    intro i store k e hk
    exact absurd hk (Nat.not_lt_zero k)
  | cons r rest ih =>
    intro i store k e hk hfail hok
    cases k with
    | zero =>
      rw [Nat.add_zero] at hfail
      unfold insertAll
      rw [hfail, List.take_zero, List.append_nil]
    | succ k' =>
      obtain ⟨u, hu⟩ := hok 0 (Nat.zero_lt_succ k')
      rw [Nat.add_zero] at hu
      unfold insertAll
      rw [hu]
      have hfail' : ins (i + 1 + k') = .error e := by
        rw [show i + 1 + k' = i + (k' + 1) by omega]
        exact hfail
      have hok' : ∀ j, j < k' → ∃ w, ins (i + 1 + j) = .ok w := by
        intro j hj
        obtain ⟨w, hw⟩ := hok (j + 1) (by omega)
        exact ⟨w, by rw [show i + 1 + j = i + (j + 1) by omega]; exact hw⟩
      rw [ih (by rw [List.length_cons] at hk; omega) hfail' hok']
      rw [List.take_succ_cons, List.append_assoc]
      rfl

theorem createEmbeddings_steps (env : IngestEnv) (docId : String)
    (doc : DocumentRecord) (hdoc : env.registry docId = some doc)
    (hconn : env.pgConnect = .ok ()) :
    createEmbeddings env docId =
      (match insertAll (ingestRows docId doc env.splitChunks env.vectors)
          env.insertOutcome 0 env.store with
        | (.error e, store2) =>
          (.error ("Failed to create embeddings: " ++ e), env.registry, store2)
        | (.ok _, store2) =>
          (.ok ⟨docId, env.splitChunks.length, "documents"⟩,
            fun i => if i = docId then
                some { doc with
                       vectorized := true,
                       supabaseCollectionName := some "documents" }
              else env.registry i,
            store2)) := by
  unfold createEmbeddings
  rw [hdoc, hconn]

/-- C3: the document's `vectorized` flag is flipped only after every chunk of
the document has been inserted — on success the store holds all the rows, all
inserts succeeded, and the registry entry has `vectorized := true`; if the
`k`-th insert fails after `k` successes, ingestion rejects with the wrapped
insert error, the registry (hence the flag) is unchanged, and only the first
`k` rows were written. -/
theorem createEmbeddings_flag (env : IngestEnv) (docId : String)
    (doc : DocumentRecord) (hdoc : env.registry docId = some doc)
    (hconn : env.pgConnect = .ok ()) :
    (∀ res reg2 store2, createEmbeddings env docId = (.ok res, reg2, store2) →
      store2 = env.store ++ ingestRows docId doc env.splitChunks env.vectors ∧
      (∀ j, j < (ingestRows docId doc env.splitChunks env.vectors).length →
        ∃ u, env.insertOutcome j = .ok u) ∧
      reg2 docId = some { doc with
                          vectorized := true,
                          supabaseCollectionName := some "documents" } ∧
      res = ⟨docId, env.splitChunks.length, "documents"⟩) ∧
    (∀ k e, k < (ingestRows docId doc env.splitChunks env.vectors).length →
      env.insertOutcome k = .error e →
      (∀ j, j < k → ∃ u, env.insertOutcome j = .ok u) →
      createEmbeddings env docId =
        (.error ("Failed to create embeddings: " ++ e), env.registry,
          env.store ++ (ingestRows docId doc env.splitChunks env.vectors).take k)) := by
  have hsteps := createEmbeddings_steps env docId doc hdoc hconn
  constructor
  · intro res reg2 store2 h
    rw [hsteps] at h
    cases hins : insertAll (ingestRows docId doc env.splitChunks env.vectors)
        env.insertOutcome 0 env.store with
    | mk st store' =>
      rw [hins] at h
      cases st with
      | error e =>
        injection h with h1 h2
        exact Except.noConfusion h1
      | ok u =>
        obtain ⟨hstore, hall⟩ := insertAll_ok_inv hins
        injection h with h1 h2
        injection h2 with h21 h22
        injection h1 with h1
        refine ⟨?_, ?_, ?_, h1.symm⟩
        · rw [← h22, hstore]
        · intro j hj
          obtain ⟨w, hw⟩ := hall j hj
          exact ⟨w, by rw [← Nat.zero_add j]; exact hw⟩
        · rw [← h21]
          exact if_pos rfl
  · intro k e hk hfail hok
    rw [hsteps]
    have hfail0 : env.insertOutcome (0 + k) = .error e := by
      rw [Nat.zero_add]
      exact hfail
    have hok0 : ∀ j, j < k → ∃ u, env.insertOutcome (0 + j) = .ok u := by
      intro j hj
      rw [Nat.zero_add]
      exact hok j hj
    rw [insertAll_fail hk hfail0 hok0]

/-- Witness for `createEmbeddings_flag`: on the sample ingestion whose second
insert fails, ingestion rejects, the registry is untouched (the flag stays
false), and only the first row was written. -/
theorem createEmbeddings_flag_witness :
    createEmbeddings ingestEnvFail "d0" =
      (.error "Failed to create embeddings: insert failed", ingestEnvFail.registry,
        [] ++ (ingestRows "d0" sampleDocRaw ingestEnvFail.splitChunks
          ingestEnvFail.vectors).take 1) :=
  (createEmbeddings_flag ingestEnvFail "d0" sampleDocRaw rfl rfl).2 1 "insert failed"
    (by decide) rfl
    (fun j hj => ⟨(), by
      have hj0 : j = 0 := Nat.lt_one_iff.1 hj
      rw [hj0]
      rfl⟩)

theorem set_getD_ne (x : ℚ) : ∀ (v : List ℚ) (i j : Nat), i ≠ j →
    (v.set i x).getD j 0 = v.getD j 0 := by
  intro v
  induction v with
  | nil => intro i j _; rfl
  | cons a as ih =>
    intro i j h
    cases i with
    | zero =>
      cases j with
      | zero => exact absurd rfl h
      | succ j' => rfl
    | succ i' =>
      cases j with
      | zero => rfl
      | succ j' => exact ih i' j' (by omega)

theorem set_getD_self (x : ℚ) : ∀ (v : List ℚ) (i : Nat), i < v.length →
    (v.set i x).getD i 0 = x := by
  intro v
  induction v with
  | nil => intro i h; exact absurd h (Nat.not_lt_zero i)
  | cons a as ih =>
    intro i h
    cases i with
    | zero => rfl
    | succ i' => exact ih i' (by rw [List.length_cons] at h; omega)

theorem set_of_length_le (x : ℚ) : ∀ (v : List ℚ) (i : Nat), v.length ≤ i →
    v.set i x = v := by
  intro v
  induction v with
  | nil => intro i _; rfl
  | cons a as ih =>
    intro i h
    cases i with
    | zero => rw [List.length_cons] at h; omega
    | succ i' =>
      rw [List.set_cons_succ, ih i' (by rw [List.length_cons] at h; omega)]

theorem addAt_getD_ne {v : List ℚ} {i j : Nat} (h : i ≠ j) (x : ℚ) :
    (addAt v i x).getD j 0 = v.getD j 0 :=
  set_getD_ne _ v i j h

theorem addAt_getD_self {v : List ℚ} {i : Nat} (h : i < v.length) (x : ℚ) :
    (addAt v i x).getD i 0 = v.getD i 0 + x :=
  set_getD_self _ v i h

theorem addAt_nonneg {v : List ℚ} {i : Nat} {x : ℚ}
    (hv : ∀ j, 0 ≤ v.getD j 0) (hx : 0 ≤ x) :
    ∀ j, 0 ≤ (addAt v i x).getD j 0 := by
  intro j
  by_cases hij : i = j
  · subst hij
    by_cases hi : i < v.length
    · rw [addAt_getD_self hi]
      exact add_nonneg (hv i) hx
    · rw [addAt, set_of_length_le _ v i (Nat.le_of_not_lt hi)]
      exact hv i
  · rw [addAt_getD_ne hij]
    exact hv j

theorem addAt_zero_getD {v : List ℚ} {i : Nat} {x : ℚ}
    (hv : ∀ j, v.getD j 0 = 0) (hx : x = 0) :
    ∀ j, (addAt v i x).getD j 0 = 0 := by
  intro j
  by_cases hij : i = j
  · subst hij
    by_cases hi : i < v.length
    · rw [addAt_getD_self hi, hv i, hx, add_zero]
    · rw [addAt, set_of_length_le _ v i (Nat.le_of_not_lt hi)]
      exact hv i
  · rw [addAt_getD_ne hij]
    exact hv j

theorem scatterValue_nonneg (freq wordsLen wi : Nat) (hwi : wi ≤ 100) :
    0 ≤ ((freq : ℚ) / (wordsLen : ℚ)) * (1 - (wi : ℚ) * (1 / 100)) := by
  apply mul_nonneg
  · exact div_nonneg (Nat.cast_nonneg freq) (Nat.cast_nonneg wordsLen)
  · have hq : (wi : ℚ) ≤ 100 := by exact_mod_cast hwi
    linarith

theorem scatterWord_nonneg {dims wordsLen : Nat} {words : List String}
    {wi : Nat} {w : String} (hwi : wi ≤ 100) {v : List ℚ}
    (hv : ∀ j, 0 ≤ v.getD j 0) :
    ∀ j, 0 ≤ (scatterWord dims wordsLen words wi w v).getD j 0 := by
  unfold scatterWord
  generalize List.range 16 = l
  induction l generalizing v with
  | nil => exact hv
  | cons a as ih =>
    rw [List.foldl_cons]
    exact ih (addAt_nonneg hv
      (scatterValue_nonneg (pseudoFreq words w) wordsLen wi hwi))

theorem scatterFold_length (dims wordsLen : Nat) (ws : List String) :
    ∀ (l : List (Nat × String)) (v : List ℚ),
      (l.foldl (fun vec (p : Nat × String) => scatterWord dims wordsLen ws p.1 p.2 vec)
        v).length = v.length := by
  intro l
  induction l with
  | nil => intro v; rfl
  | cons a as ih =>
    intro v
    rw [List.foldl_cons, ih, scatterWord_length]

theorem scatterFold_nonneg {dims wordsLen : Nat} {ws : List String} :
    ∀ (l : List (Nat × String)), (∀ p ∈ l, p.1 ≤ 100) → ∀ (v : List ℚ),
      (∀ j, 0 ≤ v.getD j 0) →
      ∀ j, 0 ≤ (l.foldl
        (fun vec (p : Nat × String) => scatterWord dims wordsLen ws p.1 p.2 vec)
        v).getD j 0 := by
  intro l
  induction l with
  | nil => intro _ v hv; exact hv
  | cons a as ih =>
    intro hl v hv
    rw [List.foldl_cons]
    exact ih (fun p hp => hl p (List.mem_cons_of_mem a hp)) _
      (scatterWord_nonneg (hl a (List.mem_cons_self ..)) hv)

theorem enumFrom_fst_lt {α : Type} :
    ∀ (l : List α) (n : Nat) (p : Nat × α), p ∈ l.enumFrom n → p.1 < n + l.length := by
  intro l
  induction l with
  | nil =>
    intro n p hp
    exact absurd hp (List.not_mem_nil p)
  | cons a as ih =>
    intro n p hp
    rcases List.mem_cons.1 hp with hp | hp
    · subst hp
      rw [List.length_cons]
      omega
    · have := ih (n + 1) p hp
      rw [List.length_cons]
      omega

theorem replicate_getD (n : Nat) : ∀ j, (List.replicate n (0 : ℚ)).getD j 0 = 0 := by
  induction n with
  | zero =>
    intro j
    cases j <;> rfl
  | succ n' ih =>
    intro j
    cases j with
    | zero => rfl
    | succ j' => exact ih j'

theorem biasFold_getD_zero (c : ℚ) :
    ∀ (l : List Nat), (∀ i ∈ l, i ≠ 0) → ∀ (v : List ℚ),
      ((l.foldl (fun vec i => if i % 200 = 0 then addAt vec i c else vec) v).getD 0 0)
        = v.getD 0 0 := by
  intro l
  induction l with
  | nil => intro _ v; rfl
  | cons a as ih =>
    intro hl v
    rw [List.foldl_cons, ih (fun i hi => hl i (List.mem_cons_of_mem a hi))]
    by_cases ha : a % 200 = 0
    · rw [if_pos ha, addAt_getD_ne (hl a (List.mem_cons_self ..))]
    · rw [if_neg ha]

theorem biasFold_nonneg {c : ℚ} (hc : 0 ≤ c) :
    ∀ (l : List Nat) (v : List ℚ), (∀ j, 0 ≤ v.getD j 0) →
      ∀ j, 0 ≤ ((l.foldl (fun vec i => if i % 200 = 0 then addAt vec i c else vec)
        v).getD j 0) := by
  intro l
  induction l with
  | nil => intro v hv; exact hv
  | cons a as ih =>
    intro v hv
    rw [List.foldl_cons]
    by_cases ha : a % 200 = 0
    · rw [if_pos ha]
      exact ih _ (addAt_nonneg hv hc)
    · rw [if_neg ha]
      exact ih _ hv

theorem biasFold_zero {c : ℚ} (hc : c = 0) :
    ∀ (l : List Nat) (v : List ℚ), (∀ j, v.getD j 0 = 0) →
      ∀ j, ((l.foldl (fun vec i => if i % 200 = 0 then addAt vec i c else vec)
        v).getD j 0) = 0 := by
  intro l
  induction l with
  | nil => intro v hv; exact hv
  | cons a as ih =>
    intro v hv
    rw [List.foldl_cons]
    by_cases ha : a % 200 = 0
    · rw [if_pos ha]
      exact ih _ (addAt_zero_getD hv hc)
    · rw [if_neg ha]
      exact ih _ hv

theorem pseudoTopWords_index_le {words : List String} :
    ∀ p ∈ (pseudoTopWords words).enum, p.1 ≤ 100 := by
  intro p hp
  have h1 := enumFrom_fst_lt (pseudoTopWords words) 0 p hp
  have h2 : (pseudoTopWords words).length ≤ 100 := by
    unfold pseudoTopWords
    exact List.length_take_le ..
  omega

theorem pseudoRawVector_nonneg (text : String) (dims : Nat) :
    ∀ j, 0 ≤ (pseudoRawVector text dims).getD j 0 := by
  unfold pseudoRawVector
  apply biasFold_nonneg
  · exact div_nonneg (Nat.cast_nonneg text.length) (by norm_num)
  · apply scatterFold_nonneg _ pseudoTopWords_index_le
    exact fun j => le_of_eq (replicate_getD dims j).symm

theorem string_length_pos {text : String} (h : text ≠ "") : 0 < text.length := by
  cases hlen : text.length with
  | zero =>
    have hdata : text.data = [] := List.length_eq_zero.1 hlen
    exact absurd (String.ext (hdata.trans rfl)) h
  | succ n => exact Nat.succ_pos n

theorem pseudoRawVector_getD0_pos {text : String} {dims : Nat} (hD : 0 < dims)
    (ht : text ≠ "") : 0 < (pseudoRawVector text dims).getD 0 0 := by
  unfold pseudoRawVector
  obtain ⟨d, rfl⟩ : ∃ d, dims = d + 1 := ⟨dims - 1, by omega⟩
  rw [List.range_succ_eq_map, List.foldl_cons,
    biasFold_getD_zero _ _ (by
      intro i hi
      obtain ⟨k, _, hk⟩ := List.mem_map.1 hi
      omega)]
  rw [if_pos (show (0 : Nat) % 200 = 0 from rfl)]
  have hslen : ((pseudoTopWords (pseudoWords text)).enum.foldl
      (fun vec (p : Nat × String) =>
        scatterWord (d + 1) (pseudoWords text).length (pseudoWords text) p.1 p.2 vec)
      (List.replicate (d + 1) 0)).length = d + 1 := by
    rw [scatterFold_length, List.length_replicate]
  rw [addAt_getD_self (by rw [hslen]; omega)]
  have hnn := @scatterFold_nonneg (d + 1) (pseudoWords text).length
    (pseudoWords text) ((pseudoTopWords (pseudoWords text)).enum)
    pseudoTopWords_index_le (List.replicate (d + 1) 0)
    (fun j => le_of_eq (replicate_getD (d + 1) j).symm) 0
  have hlen : (0 : ℚ) < (text.length : ℚ) := by
    exact_mod_cast string_length_pos ht
  have hbias : (0 : ℚ) < (text.length : ℚ) / 10000 := by positivity
  linarith

theorem pseudoMagnitude_pos (text : String) (dims : Nat) :
    0 < pseudoMagnitude text dims := by
  unfold pseudoMagnitude
  by_cases h : Real.sqrt (((pseudoRawVector text dims).map
      (fun (x : ℚ) => (x : ℝ) * (x : ℝ))).sum) = 0
  · rw [if_pos h]
    exact one_pos
  · rw [if_neg h]
    exact (Real.sqrt_nonneg _).lt_of_ne (Ne.symm h)

theorem pseudoRawVector_empty_getD (dims : Nat) :
    ∀ j, (pseudoRawVector "" dims).getD j 0 = 0 := by
  unfold pseudoRawVector
  have hw : pseudoTopWords (pseudoWords "") = [] := rfl
  rw [hw]
  apply biasFold_zero
  · have : ("" : String).length = 0 := rfl
    rw [this]
    norm_num
  · exact fun j => replicate_getD dims j

/-- C10: the deterministic hashing fallback is total, its L2-normalisation
denominator is strictly positive (the `|| 1` guard makes it 1 exactly when the
raw magnitude is zero, so no division by zero / NaN can arise), and the
produced embedding is the all-zero null vector exactly when the input text is
empty — for non-empty text the length-dependent bias makes position 0 nonzero,
so a hash-fallback embedding of a non-empty question is never mistaken for
total embedding failure by the caller's null-vector check. -/
theorem pseudoEmbedding_null_iff (text : String) (dims : Nat) (hD : 0 < dims) :
    0 < pseudoMagnitude text dims ∧
    ((∀ x ∈ generatePseudoEmbedding text dims, x = 0) ↔ text = "") := by
  refine ⟨pseudoMagnitude_pos text dims, ?_, ?_⟩
  · intro hall
    by_contra ht
    have hpos := pseudoRawVector_getD0_pos hD ht
    have hlen : 0 < (pseudoRawVector text dims).length := by
      rw [pseudoRawVector_length]
      exact hD
    have hmem : ((((pseudoRawVector text dims).getD 0 0 : ℚ) : ℝ) /
        pseudoMagnitude text dims) ∈ generatePseudoEmbedding text dims := by
      unfold generatePseudoEmbedding
      refine List.mem_map.2 ⟨(pseudoRawVector text dims).getD 0 0, ?_, rfl⟩
      rw [List.getD_eq_getElem _ _ hlen]
      exact List.getElem_mem hlen
    have hzero := hall _ hmem
    rw [div_eq_zero_iff] at hzero
    rcases hzero with h0 | hm
    · have hq : (pseudoRawVector text dims).getD 0 0 = 0 := by exact_mod_cast h0
      linarith
    · exact absurd hm (ne_of_gt (pseudoMagnitude_pos text dims))
  · intro ht
    subst ht
    intro x hx
    unfold generatePseudoEmbedding at hx
    obtain ⟨a, ha, rfl⟩ := List.mem_map.1 hx
    obtain ⟨n, hn⟩ := List.mem_iff_get.1 ha
    have h0 := pseudoRawVector_empty_getD dims n.1
    rw [List.getD_eq_getElem _ _ n.2] at h0
    have ha0 : a = 0 := by
      rw [← hn]
      rw [List.get_eq_getElem]
      exact h0
    rw [ha0, Rat.cast_zero, zero_div]

/-- Witness for `pseudoEmbedding_null_iff` at a non-trivial text and
dimensionality. -/
theorem pseudoEmbedding_null_iff_witness :
    0 < pseudoMagnitude "hello world" 4 ∧
    ((∀ x ∈ generatePseudoEmbedding "hello world" 4, x = 0) ↔ "hello world" = "") :=
  pseudoEmbedding_null_iff "hello world" 4 (by decide)

end DocReader
